import Mathlib

/-!
Verification of the CARPAS records-integrity and analytics engine.

The Python source is shallowly embedded: the SQLite store becomes a record of
lists of rows, Python `int` becomes `ℤ` (surrogate ids, which SQLite keeps
positive, become `ℕ`), Python `float` becomes `ℚ`, and `round(x, 2)` becomes
round-half-to-even at two decimals.  Fallible service operations return
`Except ServiceError`; the `session_scope` context manager becomes an explicit
state-passing combinator.  SQL `SELECT ... ORDER BY id` becomes
`List.insertionSort` on the id, `GROUP BY ... HAVING count > 1` becomes
`dupKeys`, and the one-row ORM relationships become `List.find?` on the
foreign key.
-/

namespace Carpas

/-- Round-half-to-even to an integer, the tie-breaking rule of Python `round`. -/
def roundHalfEven (q : ℚ) : ℤ :=
  let n := ⌊q⌋
  let frac := q - n
  if frac < 1/2 then n
  else if 1/2 < frac then n + 1
  else if n % 2 = 0 then n else n + 1

/-- Python `round(q, 2)`. -/
def round2 (q : ℚ) : ℚ := (roundHalfEven (q * 100) : ℚ) / 100

/-- `services._pct`: percentage helper; `None` when the denominator is not positive. -/
def pct (numer denom : ℚ) : Option ℚ :=
  if denom ≤ 0 then none
  else some (round2 (numer / denom * 100))

/-! ## Entity store (`models.py`) -/

structure Student where
  id : ℕ
  roll_no : String
  name : String
  department : Option String
  semester : Option ℤ
  email : Option String
  phone : Option String
deriving DecidableEq, Repr

structure Course where
  id : ℕ
  code : String
  name : String
  semester : Option ℤ
  credits : Option ℤ
deriving DecidableEq, Repr

structure Enrollment where
  id : ℕ
  student_id : ℕ
  course_id : ℕ
  enrolled_on : ℤ
deriving DecidableEq, Repr

structure Attendance where
  id : ℕ
  enrollment_id : ℕ
  total_classes : ℤ
  attended_classes : ℤ
deriving DecidableEq, Repr

structure Mark where
  id : ℕ
  enrollment_id : ℕ
  assessment : String
  marks_obtained : ℚ
  max_marks : ℚ
  recorded_on : ℤ
deriving DecidableEq, Repr

/-- The relational store: one list of rows per table. -/
structure Store where
  students : List Student
  courses : List Course
  enrollments : List Enrollment
  attendance : List Attendance
  marks : List Mark
deriving DecidableEq, Repr

/-- Primary keys are unique in every table (SQLite guarantees this for the
integer primary key even on legacy files that lack the unique indexes). -/
def Store.WF (st : Store) : Prop :=
  (st.students.map (·.id)).Nodup ∧
  (st.courses.map (·.id)).Nodup ∧
  (st.enrollments.map (·.id)).Nodup ∧
  (st.attendance.map (·.id)).Nodup ∧
  (st.marks.map (·.id)).Nodup

instance (st : Store) : Decidable st.WF := by
  unfold Store.WF; infer_instance

/-- The `Enrollment.attendance` one-row ORM relationship. -/
def Store.attendanceOf (st : Store) (eid : ℕ) : Option Attendance :=
  st.attendance.find? (fun a => a.enrollment_id = eid)

/-- The `Enrollment.marks` ORM relationship. -/
def Store.marksOf (st : Store) (eid : ℕ) : List Mark :=
  st.marks.filter (fun m => m.enrollment_id = eid)

/-- Caller-facing error of the service layer (`services.ServiceError`). -/
structure ServiceError where
  msg : String
deriving DecidableEq, Repr

/-! ## Transaction boundary (`db.session_scope`) -/

/-- Outcome of a Python callable: a normal return or a raised exception. -/
inductive Outcome (E : Type) (α : Type) where
  | ok (a : α)
  | raised (e : E)
deriving DecidableEq, Repr

/-- `db.session_scope`: the session's working state starts at the committed
store; the body runs against it; on normal return the commit (which may itself
fail, e.g. a deferred constraint violation, modelled by `commitFails`)
publishes the working state; on any raised error the rollback discards the
working state and the error is re-raised.  The `finally` clause closes the
session on every path; the returned `Bool` records that the handle was
released. -/
def session_scope {E α : Type} (commitFails : Store → Option E) (db : Store)
    (fn : Store → Outcome E α × Store) : Outcome E α × Store × Bool :=
  match fn db with
  | (.ok a, work) =>
    match commitFails work with
    | none => (.ok a, work, true)
    | some e => (.raised e, db, true)
  | (.raised e, _work) => (.raised e, db, true)

/-- A service operation run inside one transaction boundary.  The service
operations below validate before mutating, so their commit never fails. -/
def runService {α : Type} (db : Store)
    (fn : Store → Except ServiceError (Store × α)) :
    Outcome ServiceError α × Store × Bool :=
  session_scope (fun _ => none) db (fun s =>
    match fn s with
    | .ok (s', a) => (.ok a, s')
    | .error e => (.raised e, s))

/-! ## Service layer (`services.py`) -/

/-- Fresh surrogate id handed out by the store at flush time. -/
def freshId (ids : List ℕ) : ℕ := ids.foldr max 0 + 1

/-- Python string truthiness plus `.strip()`: `s.strip() if s else None`. -/
def stripOpt (s : Option String) : Option String :=
  s.bind (fun v => if v = "" then none else some v.trim)

/-- `services.create_student`.  The `IntegrityError` raised by the flush when
the unique index on `roll_no` is violated is modelled by the duplicate test. -/
def create_student (st : Store) (roll_no name : String)
    (department : Option String) (semester : Option ℤ)
    (email : Option String) (phone : Option String) :
    Except ServiceError (Store × Student) :=
  let student : Student :=
    { id := freshId (st.students.map (·.id))
      roll_no := roll_no.trim
      name := name.trim
      department := stripOpt department
      semester := semester
      email := stripOpt email
      phone := stripOpt phone }
  if st.students.any (fun s => s.roll_no = student.roll_no) then
    .error ⟨"Roll number already exists."⟩
  else
    .ok ({ st with students := st.students ++ [student] }, student)

/-- `services.update_student`. -/
def update_student (st : Store) (student_id : ℕ) (roll_no name : String)
    (department : Option String) (semester : Option ℤ)
    (email : Option String) (phone : Option String) :
    Except ServiceError (Store × Student) :=
  match st.students.find? (fun s => s.id = student_id) with
  | none => .error ⟨"Student not found."⟩
  | some s0 =>
    let s1 : Student :=
      { s0 with
        roll_no := roll_no.trim
        name := name.trim
        department := stripOpt department
        semester := semester
        email := stripOpt email
        phone := stripOpt phone }
    if st.students.any (fun s => s.id ≠ student_id ∧ s.roll_no = s1.roll_no) then
      .error ⟨"Roll number already exists."⟩
    else
      .ok ({ st with students := st.students.map (fun s => if s.id = student_id then s1 else s) },
           s1)

/-- `services.set_attendance`. -/
def set_attendance (st : Store) (enrollment_id : ℕ)
    (total_classes attended_classes : ℤ) :
    Except ServiceError (Store × Attendance) :=
  match st.enrollments.find? (fun e => e.id = enrollment_id) with
  | none => .error ⟨"Enrollment not found."⟩
  | some _ =>
    if total_classes < 0 ∨ attended_classes < 0 then
      .error ⟨"Attendance values must be >= 0."⟩
    else if attended_classes > total_classes then
      .error ⟨"Attended classes cannot exceed total classes."⟩
    else
      match st.attendance.find? (fun a => a.enrollment_id = enrollment_id) with
      | some a0 =>
        let a1 : Attendance :=
          { a0 with total_classes := total_classes, attended_classes := attended_classes }
        .ok ({ st with
                attendance := st.attendance.map (fun a => if a.id = a0.id then a1 else a) },
             a1)
      | none =>
        let a1 : Attendance :=
          { id := freshId (st.attendance.map (·.id))
            enrollment_id := enrollment_id
            total_classes := total_classes
            attended_classes := attended_classes }
        .ok ({ st with attendance := st.attendance ++ [a1] }, a1)

/-- `services.add_mark`. -/
def add_mark (st : Store) (enrollment_id : ℕ) (assessment : String)
    (marks_obtained max_marks : ℚ) (today : ℤ) :
    Except ServiceError (Store × Mark) :=
  match st.enrollments.find? (fun e => e.id = enrollment_id) with
  | none => .error ⟨"Enrollment not found."⟩
  | some _ =>
    if max_marks ≤ 0 then
      .error ⟨"Max marks must be > 0."⟩
    else if marks_obtained < 0 ∨ marks_obtained > max_marks then
      .error ⟨"Marks obtained must be between 0 and max marks."⟩
    else
      let m : Mark :=
        { id := freshId (st.marks.map (·.id))
          enrollment_id := enrollment_id
          assessment := if assessment.trim = "" then "Exam" else assessment.trim
          marks_obtained := marks_obtained
          max_marks := max_marks
          recorded_on := today }
      .ok ({ st with marks := st.marks ++ [m] }, m)

/-! ## Analytics engine (`services.py`, read path) -/

/-- `SELECT ... ORDER BY id`. -/
def sortById {α : Type} (idOf : α → ℕ) (l : List α) : List α :=
  l.insertionSort (fun a b => idOf a ≤ idOf b)

/-- The attendance-percentage block that `get_student_enrollment_summaries`
and `find_at_risk` both contain verbatim:
`total = e.attendance.total_classes if e.attendance else 0` (likewise
`attended`), then `_pct(attended, total)`. -/
def enrollmentAttendancePct (st : Store) (eid : ℕ) : Option ℚ :=
  let total : ℤ := match st.attendanceOf eid with | some a => a.total_classes | none => 0
  let attended : ℤ := match st.attendanceOf eid with | some a => a.attended_classes | none => 0
  pct (attended : ℚ) (total : ℚ)

/-- The marks-percentage block shared the same way:
`_pct(sum(m.marks_obtained), sum(m.max_marks))` over the enrollment's marks. -/
def enrollmentMarksPct (st : Store) (eid : ℕ) : Option ℚ :=
  let obtained : ℚ := ((st.marksOf eid).map (·.marks_obtained)).sum
  let maximum : ℚ := ((st.marksOf eid).map (·.max_marks)).sum
  pct obtained maximum

/-- `services.EnrollmentSummary`. -/
structure EnrollmentSummary where
  enrollment_id : ℕ
  course_code : String
  course_name : String
  attendance_pct : Option ℚ
  marks_pct : Option ℚ
deriving DecidableEq, Repr

/-- `services.get_student_enrollment_summaries`. -/
def get_student_enrollment_summaries (st : Store) (student_id : ℕ) :
    List EnrollmentSummary :=
  let enrollments := sortById (·.id) (st.enrollments.filter (fun e => e.student_id = student_id))
  enrollments.map (fun e =>
    { enrollment_id := e.id
      course_code := ((st.courses.find? (fun c => c.id = e.course_id)).map (·.code)).getD ""
      course_name := ((st.courses.find? (fun c => c.id = e.course_id)).map (·.name)).getD ""
      attendance_pct := enrollmentAttendancePct st e.id
      marks_pct := enrollmentMarksPct st e.id })

/-- The group of an enrollment id in the `GROUP BY Mark.enrollment_id`
subquery of `course_class_average_marks_pct`: `sum(obtained)/sum(maximum)*100`. -/
def markGroupPct (st : Store) (eid : ℕ) : ℚ :=
  (((st.marksOf eid).map (·.marks_obtained)).sum / ((st.marksOf eid).map (·.max_marks)).sum) * 100

/-- `services.course_class_average_marks_pct`: the subquery groups `Mark` rows
by `enrollment_id` (joined to `Enrollment`, restricted to the course) and
exposes each group's `sum(obtained)` and `sum(max)`; the outer query averages
`obtained/maximum*100` over the groups, and the result is rounded to 2. -/
def course_class_average_marks_pct (st : Store) (course_id : ℕ) : Option ℚ :=
  let eids := ((st.marks.map (·.enrollment_id)).dedup).filter (fun eid =>
    match st.enrollments.find? (fun e => e.id = eid) with
    | some e => e.course_id = course_id
    | none => false)
  let pcts := eids.map (markGroupPct st)
  if pcts = [] then none
  else some (round2 (pcts.sum / pcts.length))

/-- One row of the `find_at_risk` report. -/
structure AtRiskEntry where
  enrollment_id : ℕ
  roll_no : String
  student_name : String
  course_code : String
  course_name : String
  attendance_pct : Option ℚ
  marks_pct : Option ℚ
  reason : String
deriving DecidableEq, Repr

/-- The body of the `find_at_risk` loop for one enrollment: `some` entry when
the enrollment is flagged, `none` when it is not. -/
def atRiskEntry (st : Store) (attendance_threshold marks_threshold : ℚ)
    (e : Enrollment) : Option AtRiskEntry :=
  let attendance_pct := enrollmentAttendancePct st e.id
  let marks_pct := enrollmentMarksPct st e.id
  let low_attendance : Bool :=
    match attendance_pct with
    | some p => decide (p < attendance_threshold)
    | none => false
  let low_marks : Bool :=
    match marks_pct with
    | some p => decide (p < marks_threshold)
    | none => false
  if low_attendance || low_marks then
    some
      { enrollment_id := e.id
        roll_no := ((st.students.find? (fun s => s.id = e.student_id)).map (·.roll_no)).getD ""
        student_name := ((st.students.find? (fun s => s.id = e.student_id)).map (·.name)).getD ""
        course_code := ((st.courses.find? (fun c => c.id = e.course_id)).map (·.code)).getD ""
        course_name := ((st.courses.find? (fun c => c.id = e.course_id)).map (·.name)).getD ""
        attendance_pct := attendance_pct
        marks_pct := marks_pct
        reason := String.intercalate ", "
          ((if low_attendance then ["Low attendance"] else []) ++
           (if low_marks then ["Low marks"] else []))
      }
  else none

/-- `services.find_at_risk`. -/
def find_at_risk (st : Store) (attendance_threshold marks_threshold : ℚ) :
    List AtRiskEntry :=
  st.enrollments.filterMap (atRiskEntry st attendance_threshold marks_threshold)

/-! ## Reconciliation engine (`maintenance.py`)

`cleanup_duplicates` is four passes in a fixed order; each pass computes the
duplicated keys (`GROUP BY key HAVING count > 1`) once up front and then
resolves each key's group.  Within one group the rows are fetched
`ORDER BY id`, the first row is the keeper, and the per-duplicate loop body is
applied to the remaining rows in order.  For the student and course passes the
loop body only re-points rows at `keep.id` and deletes the duplicate; since
primary keys are distinct, running the loop is the same as one batched
re-point-and-delete, which is how the group step is written.  For the
attendance and enrollment passes the loop order matters (the keeper is merged
in place after each duplicate), so those group steps keep the fold. -/

/-- `GROUP BY key HAVING count(id) > 1`: keys occurring more than once, each
listed once. -/
def dupKeys {κ : Type} [DecidableEq κ] (keys : List κ) : List κ :=
  (keys.filter (fun k => 1 < keys.count k)).dedup

/-- One iteration of the duplicate-roll-number loop: re-point enrollments of
the non-keeper students to the keeper and delete the non-keepers. -/
def studentGroupStep (st : Store) (roll : String) : Store :=
  match sortById (·.id) (st.students.filter (fun s => s.roll_no = roll)) with
  | [] => st
  | [_] => st
  | keep :: dup :: rest =>
    let dups := dup :: rest
    { st with
      enrollments := st.enrollments.map (fun e =>
        if e.student_id ∈ dups.map (·.id) then { e with student_id := keep.id } else e)
      students := st.students.filter (fun s => s.id ∉ dups.map (·.id)) }

/-- One iteration of the duplicate-course-code loop. -/
def courseGroupStep (st : Store) (code : String) : Store :=
  match sortById (·.id) (st.courses.filter (fun c => c.code = code)) with
  | [] => st
  | [_] => st
  | keep :: dup :: rest =>
    let dups := dup :: rest
    { st with
      enrollments := st.enrollments.map (fun e =>
        if e.course_id ∈ dups.map (·.id) then { e with course_id := keep.id } else e)
      courses := st.courses.filter (fun c => c.id ∉ dups.map (·.id)) }

/-- The attendance merge of `cleanup_duplicates`: maxima of the two rows'
counters, then `attended` clamped to `total`.  The keeper's `id` and
`enrollment_id` are untouched. -/
def mergeAtt (keep dup : Attendance) : Attendance :=
  let total := max keep.total_classes dup.total_classes
  let attended := max keep.attended_classes dup.attended_classes
  { keep with
    total_classes := total
    attended_classes := if attended > total then total else attended }

/-- One iteration of the duplicate-attendance loop: fold the duplicates into
the keeper with `mergeAtt` (in id order, clamping after each merge) and delete
them. -/
def attGroupStep (st : Store) (eid : ℕ) : Store :=
  match sortById (·.id) (st.attendance.filter (fun a => a.enrollment_id = eid)) with
  | [] => st
  | [_] => st
  | keep :: dup :: rest =>
    let dups := dup :: rest
    let merged := dups.foldl mergeAtt keep
    { st with
      attendance := (st.attendance.filter (fun a => a.id ∉ dups.map (·.id))).map
        (fun a => if a.id = keep.id then merged else a) }

/-- The body of the duplicate-enrollment loop for one duplicate, as it takes
effect at the pass's closing flush.  The duplicate's marks move to the keeper
through an immediate core `UPDATE`, so that part is visible at once.  The
attendance lookups (`scalar_one_or_none`, modelled by `find?`: the attendance
pass has already made `enrollment_id` unique) read the database.  When the
keeper has an attendance row the merge mutates it in place and explicitly
deletes the duplicate's row.  When the keeper has none, the source assigns
`dup_att.enrollment_id = keep.id`, but the session runs with
`autoflush=False`, so the assignment stays pending: later keeper lookups do
not see it, and when the duplicate `Enrollment` is deleted its
`all, delete-orphan` attendance relationship (no `passive_deletes`) is loaded
at flush by the still-unflushed database foreign key and the row is deleted
with it, discarding the pending re-point.  The net effect of that branch is
therefore the deletion of the duplicate's attendance row. -/
def processDupEnroll (st : Store) (keepId dupId : ℕ) : Store :=
  let marks' := st.marks.map (fun m =>
    if m.enrollment_id = dupId then { m with enrollment_id := keepId } else m)
  let attendance' :=
    match st.attendance.find? (fun a => a.enrollment_id = dupId) with
    | none => st.attendance
    | some dup_att =>
      match st.attendance.find? (fun a => a.enrollment_id = keepId) with
      | none => st.attendance.filter (fun a => a.id ≠ dup_att.id)
      | some keep_att =>
        (st.attendance.filter (fun a => a.id ≠ dup_att.id)).map (fun a =>
          if a.id = keep_att.id then mergeAtt keep_att dup_att else a)
  { st with
    marks := marks'
    attendance := attendance'
    enrollments := st.enrollments.filter (fun e => e.id ≠ dupId) }

/-- One iteration of the duplicate-(student, course)-pair loop. -/
def enrollGroupStep (st : Store) (key : ℕ × ℕ) : Store :=
  match sortById (·.id) (st.enrollments.filter (fun e =>
      e.student_id = key.1 ∧ e.course_id = key.2)) with
  | [] => st
  | [_] => st
  | keep :: dup :: rest =>
    (dup :: rest).foldl (fun s d => processDupEnroll s keep.id d.id) st

/-- The student pass of `cleanup_duplicates`. -/
def studentPass (st : Store) : Store :=
  (dupKeys (st.students.map (·.roll_no))).foldl studentGroupStep st

/-- The course pass of `cleanup_duplicates`. -/
def coursePass (st : Store) : Store :=
  (dupKeys (st.courses.map (·.code))).foldl courseGroupStep st

/-- The attendance pass of `cleanup_duplicates`. -/
def attendancePass (st : Store) : Store :=
  (dupKeys (st.attendance.map (·.enrollment_id))).foldl attGroupStep st

/-- The enrollment pass of `cleanup_duplicates`. -/
def enrollmentPass (st : Store) : Store :=
  (dupKeys (st.enrollments.map (fun e => (e.student_id, e.course_id)))).foldl enrollGroupStep st

/-- `maintenance.cleanup_duplicates`: the four passes in source order. -/
def cleanup_duplicates (st : Store) : Store :=
  enrollmentPass (attendancePass (coursePass (studentPass st)))

/-- The uniqueness invariants of the data model: unique roll numbers, course
codes, at most one Attendance per enrollment, at most one Enrollment per
(student, course) pair. -/
def Store.Clean (st : Store) : Prop :=
  (st.students.map (·.roll_no)).Nodup ∧
  (st.courses.map (·.code)).Nodup ∧
  (st.attendance.map (·.enrollment_id)).Nodup ∧
  (st.enrollments.map (fun e => (e.student_id, e.course_id))).Nodup

/-- The empty store. -/
def emptyStore : Store := ⟨[], [], [], [], []⟩

/-- A one-student, one-course, one-enrollment store with one attendance row. -/
def svcSt : Store :=
  { students := [⟨1, "R1", "A", none, none, none, none⟩]
    courses := [⟨1, "C1", "c", none, none⟩]
    enrollments := [⟨1, 1, 1, 0⟩]
    attendance := [⟨1, 1, 30, 25⟩]
    marks := [] }

/-- The spec's at-risk scenario: attendance 20/40 (50%), marks 60/100 (60%). -/
def riskSt : Store :=
  { students := [⟨1, "R1", "Stu", none, none, none, none⟩]
    courses := [⟨1, "C1", "Course", none, none⟩]
    enrollments := [⟨1, 1, 1, 0⟩]
    attendance := [⟨1, 1, 40, 20⟩]
    marks := [⟨1, 1, "Exam", 60, 100, 0⟩] }

/-- The store with every Attendance row of one enrollment removed. -/
def removeAttendanceFor (st : Store) (eid : ℕ) : Store :=
  { st with attendance := st.attendance.filter (fun a => ¬ a.enrollment_id = eid) }

/-- A store whose only enrollment has an Attendance row with zero total. -/
def zeroSt : Store :=
  { students := [⟨1, "R1", "S", none, none, none, none⟩]
    courses := [⟨1, "C1", "c", none, none⟩]
    enrollments := [⟨1, 1, 1, 0⟩]
    attendance := [⟨1, 1, 0, 0⟩]
    marks := [⟨1, 1, "Exam", 10, 100, 0⟩] }

/-- C8, the spec's reading of the course class average: every enrollment of
the course that has at least one Mark contributes its own marks percentage,
computed from its own sums of obtained over max; those percentages are then
averaged (not pooled) and the average is rounded to two decimals; the result
is undefined when no enrollment of the course has marks. -/
def classAverageSpec (st : Store) (course_id : ℕ) : Option ℚ :=
  let pcts := (st.enrollments.filter (fun e => e.course_id = course_id)).filterMap (fun e =>
    let ms := st.marks.filter (fun m => m.enrollment_id = e.id)
    if ms.isEmpty then none
    else some ((ms.map (·.marks_obtained)).sum / (ms.map (·.max_marks)).sum * 100))
  if pcts.isEmpty then none else some (round2 (pcts.sum / pcts.length))

/-- A legacy store with a duplicated roll number, a duplicated (student,
course) pair and a duplicated Attendance enrollment id. -/
def dupSt : Store :=
  { students := [⟨1, "X1", "A", none, none, none, none⟩,
                 ⟨2, "X1", "B", none, none, none, none⟩]
    courses := [⟨1, "C1", "c", none, none⟩]
    enrollments := [⟨1, 1, 1, 0⟩, ⟨2, 2, 1, 0⟩, ⟨3, 1, 1, 0⟩]
    attendance := [⟨1, 2, 10, 5⟩, ⟨2, 3, 8, 7⟩]
    marks := [⟨1, 2, "Q", 5, 10, 0⟩, ⟨2, 3, "Q", 7, 10, 0⟩] }

section ListHelpers

variable {α : Type} {κ : Type} [DecidableEq κ]

lemma sortById_perm (idOf : α → ℕ) (l : List α) : List.Perm (sortById idOf l) l :=
  List.perm_insertionSort _ l

lemma sortById_mem (idOf : α → ℕ) {l : List α} {x : α} :
    x ∈ sortById idOf l ↔ x ∈ l := List.mem_insertionSort _

lemma count_map_key (keyOf : α → κ) (l : List α) (r : κ) :
    (l.map keyOf).count r = l.countP (fun x => keyOf x = r) := by
  rw [List.count_eq_countP, List.countP_map]
  exact List.countP_congr (fun x _ => by simp)

lemma countP_key_eq_one_of_mem (keyOf : α → κ) {l : List α}
    (h : (l.map keyOf).Nodup) {x : α} (hx : x ∈ l) :
    l.countP (fun y => keyOf y = keyOf x) = 1 := by
  rw [← count_map_key]
  exact List.count_eq_one_of_mem h (List.mem_map_of_mem _ hx)

/-- Two members of a list with distinct ids that share an id are equal. -/
lemma eq_of_id_eq (idOf : α → ℕ) {l : List α} (h : (l.map idOf).Nodup)
    {x y : α} (hx : x ∈ l) (hy : y ∈ l) (hxy : idOf x = idOf y) : x = y :=
  List.inj_on_of_nodup_map h hx hy hxy

lemma nodup_map_filter {β : Type} (f : α → β) {l : List α}
    (h : (l.map f).Nodup) (p : α → Bool) : ((l.filter p).map f).Nodup :=
  h.sublist ((l.filter_sublist).map f)

lemma map_proj_of_pointwise {β : Type} (f : α → β) (g : α → α) {l : List α}
    (h : ∀ x ∈ l, f (g x) = f x) : (l.map g).map f = l.map f := by
  rw [List.map_map]
  exact List.map_congr_left h

lemma countP_map_of_pointwise (keyOf : α → κ) (g : α → α) {l : List α}
    (h : ∀ x ∈ l, keyOf (g x) = keyOf x) (r : κ) :
    (l.map g).countP (fun x => keyOf x = r) = l.countP (fun x => keyOf x = r) := by
  rw [List.countP_map]
  exact List.countP_congr (fun x hx => by simp [h x hx])

lemma nodup_map_of_countP_le_one (keyOf : α → κ) {l : List α}
    (h : ∀ r : κ, l.countP (fun x => keyOf x = r) ≤ 1) : (l.map keyOf).Nodup := by
  rw [List.nodup_iff_count_le_one]
  intro b
  rw [count_map_key]
  exact h b

lemma mem_dupKeys {keys : List κ} {k : κ} : k ∈ dupKeys keys ↔ 1 < keys.count k := by
  unfold dupKeys
  rw [List.mem_dedup, List.mem_filter]
  constructor
  · rintro ⟨-, h⟩
    simpa using h
  · intro h
    exact ⟨List.count_pos_iff.mp (by omega), by simpa using h⟩

lemma dupKeys_eq_nil_of_nodup {keys : List κ} (h : keys.Nodup) : dupKeys keys = [] := by
  rw [List.eq_nil_iff_forall_not_mem]
  intro k hk
  have h1 := List.nodup_iff_count_le_one.mp h k
  have h2 := mem_dupKeys.mp hk
  omega

/-- After deleting the non-keeper rows of one duplicate group, the group's key
occurs at most once. -/
lemma resolve_countP_le_one [DecidableEq α] (idOf : α → ℕ) (keyOf : α → κ)
    {l : List α} {k : κ} (hids : (l.map idOf).Nodup) {keep : α} {dups : List α}
    (hgrp : sortById idOf (l.filter (fun x => keyOf x = k)) = keep :: dups) :
    (l.filter (fun x => idOf x ∉ dups.map idOf)).countP (fun x => keyOf x = k) ≤ 1 := by
  rw [List.countP_filter]
  have hmono : ∀ x ∈ l,
      (decide (keyOf x = k) && decide (idOf x ∉ dups.map idOf)) = true →
      (x == keep) = true := by
    intro x hx hand
    simp only [Bool.and_eq_true, decide_eq_true_eq] at hand
    obtain ⟨hkey, hnotin⟩ := hand
    have hxfil : x ∈ l.filter (fun y => keyOf y = k) :=
      List.mem_filter.mpr ⟨hx, by simpa using hkey⟩
    have hxgrp : x ∈ keep :: dups := by
      rw [← hgrp]
      exact (sortById_mem _).mpr hxfil
    rcases List.mem_cons.mp hxgrp with h | h
    · simp [h]
    · exact absurd (List.mem_map_of_mem idOf h) hnotin
  calc l.countP (fun x => decide (keyOf x = k) && decide (idOf x ∉ dups.map idOf))
      ≤ l.countP (· == keep) := List.countP_mono_left hmono
    _ = l.count keep := (List.count_eq_countP _ _).symm
    _ ≤ 1 := List.nodup_iff_count_le_one.mp (List.Nodup.of_map idOf hids) keep

/-- Deleting the non-keeper rows of one duplicate group leaves the counts of
all other keys unchanged. -/
lemma resolve_countP_eq (idOf : α → ℕ) (keyOf : α → κ)
    {l : List α} {k : κ} (hids : (l.map idOf).Nodup) {keep : α} {dups : List α}
    (hgrp : sortById idOf (l.filter (fun x => keyOf x = k)) = keep :: dups)
    (r : κ) (hr : r ≠ k) :
    (l.filter (fun x => idOf x ∉ dups.map idOf)).countP (fun x => keyOf x = r) =
      l.countP (fun x => keyOf x = r) := by
  rw [List.countP_filter]
  refine List.countP_congr (fun x hx => ?_)
  simp only [Bool.and_eq_true, decide_eq_true_eq]
  constructor
  · rintro ⟨h1, -⟩
    exact h1
  · intro h1
    refine ⟨h1, ?_⟩
    intro hin
    obtain ⟨d, hd, hdid⟩ := List.mem_map.mp hin
    have hdgrp : d ∈ keep :: dups := List.mem_cons_of_mem _ hd
    rw [← hgrp] at hdgrp
    obtain ⟨hdl, hdkey⟩ := List.mem_filter.mp ((sortById_mem _).mp hdgrp)
    have hxd : x = d := eq_of_id_eq idOf hids hx hdl hdid.symm
    subst hxd
    exact hr (h1.symm.trans (by simpa using hdkey))

/-- Tail-form version of `resolve_countP_le_one`, covering the no-duplicate
groups as well. -/
lemma resolve_countP_le_one' [DecidableEq α] (idOf : α → ℕ) (keyOf : α → κ)
    (l : List α) (k : κ) (hids : (l.map idOf).Nodup) :
    (l.filter (fun x => idOf x ∉
      ((sortById idOf (l.filter (fun x => keyOf x = k))).tail.map idOf))).countP
      (fun x => keyOf x = k) ≤ 1 := by
  rcases hg : sortById idOf (l.filter (fun x => keyOf x = k)) with _ | ⟨keep, dups⟩
  · have hfil : l.filter (fun x => keyOf x = k) = [] := by
      have hperm := sortById_perm idOf (l.filter (fun x => keyOf x = k))
      rw [hg] at hperm
      exact List.Perm.eq_nil hperm.symm
    have h0 : l.countP (fun x => keyOf x = k) = 0 := by
      rw [List.countP_eq_length_filter, hfil]
      rfl
    have hle : (l.filter (fun x => idOf x ∉
        (([] : List α).tail.map idOf))).countP (fun x => keyOf x = k) ≤
        l.countP (fun x => keyOf x = k) := by
      rw [List.countP_filter]
      exact List.countP_mono_left (fun x _ h => by
        simp only [Bool.and_eq_true] at h
        exact h.1)
    omega
  · simp only [List.tail_cons]
    exact resolve_countP_le_one idOf keyOf hids hg

/-- Tail-form version of `resolve_countP_eq`. -/
lemma resolve_countP_eq' (idOf : α → ℕ) (keyOf : α → κ)
    (l : List α) (k : κ) (hids : (l.map idOf).Nodup) (r : κ) (hr : r ≠ k) :
    (l.filter (fun x => idOf x ∉
      ((sortById idOf (l.filter (fun x => keyOf x = k))).tail.map idOf))).countP
      (fun x => keyOf x = r) =
      l.countP (fun x => keyOf x = r) := by
  rcases hg : sortById idOf (l.filter (fun x => keyOf x = k)) with _ | ⟨keep, dups⟩
  · simp only [List.tail_nil, List.map_nil]
    rw [List.countP_filter]
    refine List.countP_congr (fun x hx => ?_)
    simp
  · simp only [List.tail_cons]
    exact resolve_countP_eq idOf keyOf hids hg r hr

/-- Generic transport of per-step counting facts through a fold over the
duplicated keys. -/
lemma foldl_step_counts {σ : Type} (step : σ → κ → σ) (cnt : σ → κ → ℕ) (inv : σ → Prop)
    (hstep_inv : ∀ s k, inv s → inv (step s k))
    (hstep_le : ∀ s k, inv s → cnt (step s k) k ≤ 1)
    (hstep_eq : ∀ s k r, inv s → r ≠ k → cnt (step s k) r = cnt s r) :
    ∀ (K : List κ) (s : σ), inv s →
      inv (K.foldl step s) ∧
      (∀ k ∈ K, cnt (K.foldl step s) k ≤ 1) ∧
      (∀ k, k ∉ K → cnt (K.foldl step s) k = cnt s k) := by
  intro K
  induction K with
  | nil =>
    intro s hs
    exact ⟨hs, by simp, fun k _ => rfl⟩
  | cons k K ih =>
    intro s hs
    rw [List.foldl_cons]
    obtain ⟨h1, h2, h3⟩ := ih (step s k) (hstep_inv s k hs)
    refine ⟨h1, ?_, ?_⟩
    · intro k0 hk0
      rcases List.mem_cons.mp hk0 with rfl | hk0'
      · by_cases hmem : k0 ∈ K
        · exact h2 k0 hmem
        · rw [h3 k0 hmem]
          exact hstep_le s k0 hs
      · exact h2 k0 hk0'
    · intro k0 hk0
      have hne : k0 ≠ k := fun h => hk0 (h ▸ List.mem_cons_self _ _)
      have hnK : k0 ∉ K := fun h => hk0 (List.mem_cons_of_mem _ h)
      rw [h3 k0 hnK, hstep_eq s k k0 hs hne]

/-- A fold preserves any projection each step preserves. -/
lemma foldl_preserves {σ β : Type} (step : σ → κ → σ) (f : σ → β)
    (h : ∀ s k, f (step s k) = f s) :
    ∀ (K : List κ) (s : σ), f (K.foldl step s) = f s := by
  intro K
  induction K with
  | nil => intro s; rfl
  | cons k K ih =>
    intro s
    rw [List.foldl_cons, ih, h]

/-- A fold preserves an invariant-guarded projection. -/
lemma foldl_preserves_of_inv {σ β : Type} (step : σ → κ → σ) (inv : σ → Prop) (f : σ → β)
    (hinv : ∀ s k, inv s → inv (step s k))
    (h : ∀ s k, inv s → f (step s k) = f s) :
    ∀ (K : List κ) (s : σ), inv s → f (K.foldl step s) = f s := by
  intro K
  induction K with
  | nil => intro s _; rfl
  | cons k K ih =>
    intro s hs
    rw [List.foldl_cons, ih (step s k) (hinv s k hs), h s k hs]

end ListHelpers

/-- The attendance merge preserves the keeper's identity. -/
lemma foldl_mergeAtt_id (dups : List Attendance) : ∀ keep : Attendance,
    (dups.foldl mergeAtt keep).id = keep.id ∧
    (dups.foldl mergeAtt keep).enrollment_id = keep.enrollment_id := by
  induction dups with
  | nil => intro keep; exact ⟨rfl, rfl⟩
  | cons d ds ih =>
    intro keep
    rw [List.foldl_cons]
    exact ⟨(ih (mergeAtt keep d)).1, (ih (mergeAtt keep d)).2⟩

lemma studentGroupStep_students (st : Store) (k : String) :
    (studentGroupStep st k).students =
      st.students.filter (fun s => s.id ∉
        ((sortById (·.id) (st.students.filter (fun s => s.roll_no = k))).tail.map (·.id))) := by
  unfold studentGroupStep
  rcases hg : sortById (·.id) (st.students.filter (fun s => s.roll_no = k)) with
    _ | ⟨keep, _ | ⟨d, ds⟩⟩ <;> rw [hg]
  · simp
  · simp
  · rfl

lemma studentGroupStep_others (st : Store) (k : String) :
    (studentGroupStep st k).courses = st.courses ∧
    (studentGroupStep st k).attendance = st.attendance ∧
    (studentGroupStep st k).marks = st.marks ∧
    (studentGroupStep st k).enrollments.map (·.id) = st.enrollments.map (·.id) := by
  unfold studentGroupStep
  rcases hg : sortById (·.id) (st.students.filter (fun s => s.roll_no = k)) with
    _ | ⟨keep, _ | ⟨d, ds⟩⟩ <;> rw [hg]
  · exact ⟨rfl, rfl, rfl, rfl⟩
  · exact ⟨rfl, rfl, rfl, rfl⟩
  · refine ⟨rfl, rfl, rfl, ?_⟩
    refine map_proj_of_pointwise _ _ (fun e _ => ?_)
    split <;> rfl

lemma courseGroupStep_courses (st : Store) (k : String) :
    (courseGroupStep st k).courses =
      st.courses.filter (fun c => c.id ∉
        ((sortById (·.id) (st.courses.filter (fun c => c.code = k))).tail.map (·.id))) := by
  unfold courseGroupStep
  rcases hg : sortById (·.id) (st.courses.filter (fun c => c.code = k)) with
    _ | ⟨keep, _ | ⟨d, ds⟩⟩ <;> rw [hg]
  · simp
  · simp
  · rfl

lemma courseGroupStep_others (st : Store) (k : String) :
    (courseGroupStep st k).students = st.students ∧
    (courseGroupStep st k).attendance = st.attendance ∧
    (courseGroupStep st k).marks = st.marks ∧
    (courseGroupStep st k).enrollments.map (·.id) = st.enrollments.map (·.id) := by
  unfold courseGroupStep
  rcases hg : sortById (·.id) (st.courses.filter (fun c => c.code = k)) with
    _ | ⟨keep, _ | ⟨d, ds⟩⟩ <;> rw [hg]
  · exact ⟨rfl, rfl, rfl, rfl⟩
  · exact ⟨rfl, rfl, rfl, rfl⟩
  · refine ⟨rfl, rfl, rfl, ?_⟩
    refine map_proj_of_pointwise _ _ (fun e _ => ?_)
    split <;> rfl

/-! ### Per-step facts for the attendance pass -/

lemma attGroupStep_others (st : Store) (k : ℕ) :
    (attGroupStep st k).students = st.students ∧
    (attGroupStep st k).courses = st.courses ∧
    (attGroupStep st k).enrollments = st.enrollments ∧
    (attGroupStep st k).marks = st.marks := by
  unfold attGroupStep
  rcases hg : sortById (·.id) (st.attendance.filter (fun a => a.enrollment_id = k)) with
    _ | ⟨keep, _ | ⟨d, ds⟩⟩ <;> rw [hg] <;> exact ⟨rfl, rfl, rfl, rfl⟩

lemma attGroupStep_counts (st : Store) (k : ℕ)
    (hids : (st.attendance.map (·.id)).Nodup) :
    ((attGroupStep st k).attendance.map (·.id)).Nodup ∧
    (attGroupStep st k).attendance.countP (fun a => a.enrollment_id = k) ≤ 1 ∧
    (∀ r, r ≠ k → (attGroupStep st k).attendance.countP (fun a => a.enrollment_id = r) =
      st.attendance.countP (fun a => a.enrollment_id = r)) := by
  rcases hg : sortById (·.id) (st.attendance.filter (fun a => a.enrollment_id = k)) with
    _ | ⟨keep, _ | ⟨d, ds⟩⟩
  · have hstep : attGroupStep st k = st := by
      unfold attGroupStep
      rw [hg]
    rw [hstep]
    refine ⟨hids, ?_, fun r hr => rfl⟩
    have hfil : st.attendance.filter (fun a => a.enrollment_id = k) = [] := by
      have hperm := sortById_perm (·.id) (st.attendance.filter (fun a => a.enrollment_id = k))
      rw [hg] at hperm
      exact List.Perm.eq_nil hperm.symm
    rw [List.countP_eq_length_filter, hfil]
    simp
  · have hstep : attGroupStep st k = st := by
      unfold attGroupStep
      rw [hg]
    rw [hstep]
    refine ⟨hids, ?_, fun r hr => rfl⟩
    have hperm := sortById_perm (·.id) (st.attendance.filter (fun a => a.enrollment_id = k))
    rw [hg] at hperm
    rw [List.countP_eq_length_filter, ← hperm.length_eq]
    simp
  · have hstep : (attGroupStep st k).attendance =
        (st.attendance.filter (fun a => a.id ∉ ((d :: ds).map (·.id)))).map
          (fun a => if a.id = keep.id then (d :: ds).foldl mergeAtt keep else a) := by
      unfold attGroupStep
      rw [hg]
    rw [hstep]
    have hkeepmem : keep ∈ st.attendance := by
      have h1 : keep ∈ keep :: d :: ds := List.mem_cons_self _ _
      rw [← hg] at h1
      exact (List.mem_filter.mp ((sortById_mem _).mp h1)).1
    have hmid := foldl_mergeAtt_id (d :: ds) keep
    have hidpres : ∀ x ∈ st.attendance.filter
        (fun a => a.id ∉ (d :: ds).map (·.id)),
        ((fun a => if a.id = keep.id then (d :: ds).foldl mergeAtt keep else a) x).id = x.id := by
      intro x _
      by_cases h : x.id = keep.id
      · simp only [h, if_pos]
        rw [hmid.1]
      · simp only [if_neg h]
    have heidpres : ∀ x ∈ st.attendance.filter
        (fun a => a.id ∉ (d :: ds).map (·.id)),
        ((fun a => if a.id = keep.id then (d :: ds).foldl mergeAtt keep else a) x).enrollment_id =
          x.enrollment_id := by
      intro x hx
      by_cases h : x.id = keep.id
      · have hxmem : x ∈ st.attendance := List.mem_of_mem_filter hx
        have hxk : x = keep := eq_of_id_eq (·.id) hids hxmem hkeepmem h
        simp only [h, if_pos]
        rw [hmid.2, hxk]
      · simp only [if_neg h]
    refine ⟨?_, ?_, ?_⟩
    · rw [map_proj_of_pointwise (fun a : Attendance => a.id) _ hidpres]
      exact nodup_map_filter _ hids _
    · rw [countP_map_of_pointwise (fun a : Attendance => a.enrollment_id) _ heidpres]
      exact resolve_countP_le_one (fun a : Attendance => a.id) (fun a : Attendance => a.enrollment_id) hids hg
    · intro r hr
      rw [countP_map_of_pointwise (fun a : Attendance => a.enrollment_id) _ heidpres]
      exact resolve_countP_eq (fun a : Attendance => a.id) (fun a : Attendance => a.enrollment_id) hids hg r hr

lemma studentGroupStep_counts (st : Store) (k : String)
    (hids : (st.students.map (·.id)).Nodup) :
    ((studentGroupStep st k).students.map (·.id)).Nodup ∧
    (studentGroupStep st k).students.countP (fun s => s.roll_no = k) ≤ 1 ∧
    (∀ r, r ≠ k → (studentGroupStep st k).students.countP (fun s => s.roll_no = r) =
      st.students.countP (fun s => s.roll_no = r)) := by
  rw [studentGroupStep_students]
  exact ⟨nodup_map_filter _ hids _,
    resolve_countP_le_one' (fun s : Student => s.id) (fun s : Student => s.roll_no) _ k hids,
    fun r hr =>
      resolve_countP_eq' (fun s : Student => s.id) (fun s : Student => s.roll_no) _ k hids r hr⟩

lemma courseGroupStep_counts (st : Store) (k : String)
    (hids : (st.courses.map (·.id)).Nodup) :
    ((courseGroupStep st k).courses.map (·.id)).Nodup ∧
    (courseGroupStep st k).courses.countP (fun c => c.code = k) ≤ 1 ∧
    (∀ r, r ≠ k → (courseGroupStep st k).courses.countP (fun c => c.code = r) =
      st.courses.countP (fun c => c.code = r)) := by
  rw [courseGroupStep_courses]
  exact ⟨nodup_map_filter _ hids _,
    resolve_countP_le_one' (fun c : Course => c.id) (fun c : Course => c.code) _ k hids,
    fun r hr =>
      resolve_countP_eq' (fun c : Course => c.id) (fun c : Course => c.code) _ k hids r hr⟩

/-! ### Pass-level facts -/

lemma studentPass_facts (st : Store) (hids : (st.students.map (·.id)).Nodup) :
    ((studentPass st).students.map (·.id)).Nodup ∧
    ((studentPass st).students.map (·.roll_no)).Nodup ∧
    (studentPass st).courses = st.courses ∧
    (studentPass st).attendance = st.attendance ∧
    (studentPass st).marks = st.marks ∧
    (studentPass st).enrollments.map (·.id) = st.enrollments.map (·.id) := by
  obtain ⟨hinv, hin, hout⟩ := foldl_step_counts studentGroupStep
      (fun s k => s.students.countP (fun x => x.roll_no = k))
      (fun s => (s.students.map (·.id)).Nodup)
      (fun s k h => (studentGroupStep_counts s k h).1)
      (fun s k h => (studentGroupStep_counts s k h).2.1)
      (fun s k r h hr => (studentGroupStep_counts s k h).2.2 r hr)
      (dupKeys (st.students.map (·.roll_no))) st hids
  refine ⟨hinv, ?_,
    foldl_preserves studentGroupStep (fun s => s.courses)
      (fun s k => (studentGroupStep_others s k).1) _ st,
    foldl_preserves studentGroupStep (fun s => s.attendance)
      (fun s k => (studentGroupStep_others s k).2.1) _ st,
    foldl_preserves studentGroupStep (fun s => s.marks)
      (fun s k => (studentGroupStep_others s k).2.2.1) _ st,
    foldl_preserves studentGroupStep (fun s => s.enrollments.map (·.id))
      (fun s k => (studentGroupStep_others s k).2.2.2) _ st⟩
  refine nodup_map_of_countP_le_one (fun s : Student => s.roll_no) (fun r => ?_)
  show (studentPass st).students.countP (fun x => x.roll_no = r) ≤ 1
  unfold studentPass
  by_cases hr : r ∈ dupKeys (st.students.map (·.roll_no))
  · exact hin r hr
  · rw [hout r hr, ← count_map_key (fun s : Student => s.roll_no) st.students r]
    have h2 : ¬ 1 < (st.students.map (·.roll_no)).count r := fun h => hr (mem_dupKeys.mpr h)
    omega

lemma coursePass_facts (st : Store) (hids : (st.courses.map (·.id)).Nodup) :
    ((coursePass st).courses.map (·.id)).Nodup ∧
    ((coursePass st).courses.map (·.code)).Nodup ∧
    (coursePass st).students = st.students ∧
    (coursePass st).attendance = st.attendance ∧
    (coursePass st).marks = st.marks ∧
    (coursePass st).enrollments.map (·.id) = st.enrollments.map (·.id) := by
  obtain ⟨hinv, hin, hout⟩ := foldl_step_counts courseGroupStep
      (fun s k => s.courses.countP (fun x => x.code = k))
      (fun s => (s.courses.map (·.id)).Nodup)
      (fun s k h => (courseGroupStep_counts s k h).1)
      (fun s k h => (courseGroupStep_counts s k h).2.1)
      (fun s k r h hr => (courseGroupStep_counts s k h).2.2 r hr)
      (dupKeys (st.courses.map (·.code))) st hids
  refine ⟨hinv, ?_,
    foldl_preserves courseGroupStep (fun s => s.students)
      (fun s k => (courseGroupStep_others s k).1) _ st,
    foldl_preserves courseGroupStep (fun s => s.attendance)
      (fun s k => (courseGroupStep_others s k).2.1) _ st,
    foldl_preserves courseGroupStep (fun s => s.marks)
      (fun s k => (courseGroupStep_others s k).2.2.1) _ st,
    foldl_preserves courseGroupStep (fun s => s.enrollments.map (·.id))
      (fun s k => (courseGroupStep_others s k).2.2.2) _ st⟩
  refine nodup_map_of_countP_le_one (fun c : Course => c.code) (fun r => ?_)
  show (coursePass st).courses.countP (fun x => x.code = r) ≤ 1
  unfold coursePass
  by_cases hr : r ∈ dupKeys (st.courses.map (·.code))
  · exact hin r hr
  · rw [hout r hr, ← count_map_key (fun c : Course => c.code) st.courses r]
    have h2 : ¬ 1 < (st.courses.map (·.code)).count r := fun h => hr (mem_dupKeys.mpr h)
    omega

lemma attendancePass_facts (st : Store) (hids : (st.attendance.map (·.id)).Nodup) :
    ((attendancePass st).attendance.map (·.id)).Nodup ∧
    ((attendancePass st).attendance.map (·.enrollment_id)).Nodup ∧
    (attendancePass st).students = st.students ∧
    (attendancePass st).courses = st.courses ∧
    (attendancePass st).enrollments = st.enrollments ∧
    (attendancePass st).marks = st.marks := by
  obtain ⟨hinv, hin, hout⟩ := foldl_step_counts attGroupStep
      (fun s k => s.attendance.countP (fun x => x.enrollment_id = k))
      (fun s => (s.attendance.map (·.id)).Nodup)
      (fun s k h => (attGroupStep_counts s k h).1)
      (fun s k h => (attGroupStep_counts s k h).2.1)
      (fun s k r h hr => (attGroupStep_counts s k h).2.2 r hr)
      (dupKeys (st.attendance.map (·.enrollment_id))) st hids
  refine ⟨hinv, ?_,
    foldl_preserves attGroupStep (fun s => s.students)
      (fun s k => (attGroupStep_others s k).1) _ st,
    foldl_preserves attGroupStep (fun s => s.courses)
      (fun s k => (attGroupStep_others s k).2.1) _ st,
    foldl_preserves attGroupStep (fun s => s.enrollments)
      (fun s k => (attGroupStep_others s k).2.2.1) _ st,
    foldl_preserves attGroupStep (fun s => s.marks)
      (fun s k => (attGroupStep_others s k).2.2.2) _ st⟩
  refine nodup_map_of_countP_le_one (fun a : Attendance => a.enrollment_id) (fun r => ?_)
  show (attendancePass st).attendance.countP (fun x => x.enrollment_id = r) ≤ 1
  unfold attendancePass
  by_cases hr : r ∈ dupKeys (st.attendance.map (·.enrollment_id))
  · exact hin r hr
  · rw [hout r hr, ← count_map_key (fun a : Attendance => a.enrollment_id) st.attendance r]
    have h2 : ¬ 1 < (st.attendance.map (·.enrollment_id)).count r := fun h => hr (mem_dupKeys.mpr h)
    omega

/-! ### Per-step facts for the enrollment pass -/

lemma processDupEnroll_parts (st : Store) (kid did : ℕ) :
    (processDupEnroll st kid did).students = st.students ∧
    (processDupEnroll st kid did).courses = st.courses ∧
    (processDupEnroll st kid did).enrollments = st.enrollments.filter (fun e => e.id ≠ did) ∧
    (processDupEnroll st kid did).marks =
      st.marks.map (fun m =>
        if m.enrollment_id = did then { m with enrollment_id := kid } else m) := by
  unfold processDupEnroll
  exact ⟨rfl, rfl, rfl, rfl⟩

lemma processDupEnroll_att_none (st : Store) (kid did : ℕ)
    (hfd : st.attendance.find? (fun a => a.enrollment_id = did) = none) :
    (processDupEnroll st kid did).attendance = st.attendance := by
  unfold processDupEnroll
  rw [hfd]

lemma processDupEnroll_att_drop (st : Store) (kid did : ℕ) (da : Attendance)
    (hfd : st.attendance.find? (fun a => a.enrollment_id = did) = some da)
    (hfk : st.attendance.find? (fun a => a.enrollment_id = kid) = none) :
    (processDupEnroll st kid did).attendance =
      st.attendance.filter (fun a => a.id ≠ da.id) := by
  unfold processDupEnroll
  rw [hfd, hfk]

lemma processDupEnroll_att_merge (st : Store) (kid did : ℕ) (da ka : Attendance)
    (hfd : st.attendance.find? (fun a => a.enrollment_id = did) = some da)
    (hfk : st.attendance.find? (fun a => a.enrollment_id = kid) = some ka) :
    (processDupEnroll st kid did).attendance =
      (st.attendance.filter (fun a => a.id ≠ da.id)).map (fun a =>
        if a.id = ka.id then mergeAtt ka da else a) := by
  unfold processDupEnroll
  rw [hfd, hfk]

lemma processDupEnroll_att_nodup (st : Store) (kid did : ℕ) (hkd : kid ≠ did)
    (hattids : (st.attendance.map (·.id)).Nodup)
    (hatteids : (st.attendance.map (·.enrollment_id)).Nodup) :
    ((processDupEnroll st kid did).attendance.map (·.id)).Nodup ∧
    ((processDupEnroll st kid did).attendance.map (·.enrollment_id)).Nodup := by
  rcases hfd : st.attendance.find? (fun a => a.enrollment_id = did) with _ | da
  · rw [processDupEnroll_att_none st kid did hfd]
    exact ⟨hattids, hatteids⟩
  · have hdamem := List.mem_of_find?_eq_some hfd
    have hdaeid : da.enrollment_id = did := by simpa using List.find?_some hfd
    rcases hfk : st.attendance.find? (fun a => a.enrollment_id = kid) with _ | ka
    · rw [processDupEnroll_att_drop st kid did da hfd hfk]
      exact ⟨nodup_map_filter _ hattids _, nodup_map_filter _ hatteids _⟩
    · have hkamem := List.mem_of_find?_eq_some hfk
      have hkaeid : ka.enrollment_id = kid := by simpa using List.find?_some hfk
      have hkada : ka.id ≠ da.id := by
        intro h
        have hk : ka = da := eq_of_id_eq (fun a : Attendance => a.id) hattids hkamem hdamem h
        exact hkd (by rw [← hkaeid, hk, hdaeid])
      rw [processDupEnroll_att_merge st kid did da ka hfd hfk]
      have hidp : ∀ x ∈ st.attendance.filter (fun a => a.id ≠ da.id),
          ((fun a => if a.id = ka.id then mergeAtt ka da else a) x).id = x.id := by
        intro x _
        show (if x.id = ka.id then mergeAtt ka da else x).id = x.id
        by_cases h : x.id = ka.id
        · rw [if_pos h]
          exact h.symm
        · rw [if_neg h]
      have heidp : ∀ x ∈ st.attendance.filter (fun a => a.id ≠ da.id),
          ((fun a => if a.id = ka.id then mergeAtt ka da else a) x).enrollment_id =
            x.enrollment_id := by
        intro x hx
        show (if x.id = ka.id then mergeAtt ka da else x).enrollment_id = x.enrollment_id
        by_cases h : x.id = ka.id
        · have hxka : x = ka :=
            eq_of_id_eq (fun a : Attendance => a.id) hattids (List.mem_of_mem_filter hx) hkamem h
          rw [if_pos h]
          show ka.enrollment_id = x.enrollment_id
          rw [hxka]
        · rw [if_neg h]
      constructor
      · rw [map_proj_of_pointwise (fun a : Attendance => a.id) _ hidp]
        exact nodup_map_filter _ hattids _
      · rw [map_proj_of_pointwise (fun a : Attendance => a.enrollment_id) _ heidp]
        exact nodup_map_filter _ hatteids _

/-- Facts about the per-group fold of the enrollment pass: the duplicates are
deleted, their marks are re-pointed to the keeper, everything else keeps its
identity, and attendance row/enrollment-id uniqueness is preserved. -/
lemma processFold_facts (kid : ℕ) (ds : List Enrollment) : ∀ (st : Store),
    (∀ d ∈ ds, kid ≠ d.id) →
    (st.attendance.map (·.id)).Nodup →
    (st.attendance.map (·.enrollment_id)).Nodup →
    (ds.foldl (fun s d => processDupEnroll s kid d.id) st).students = st.students ∧
    (ds.foldl (fun s d => processDupEnroll s kid d.id) st).courses = st.courses ∧
    (ds.foldl (fun s d => processDupEnroll s kid d.id) st).enrollments =
      st.enrollments.filter (fun e => e.id ∉ ds.map (·.id)) ∧
    (ds.foldl (fun s d => processDupEnroll s kid d.id) st).marks =
      st.marks.map (fun m =>
        if m.enrollment_id ∈ ds.map (·.id) then { m with enrollment_id := kid } else m) ∧
    ((ds.foldl (fun s d => processDupEnroll s kid d.id) st).attendance.map (·.id)).Nodup ∧
    ((ds.foldl (fun s d => processDupEnroll s kid d.id) st).attendance.map
      (·.enrollment_id)).Nodup := by
  induction ds with
  | nil =>
    intro st _ h1 h2
    refine ⟨rfl, rfl, (List.filter_eq_self.mpr (by simp)).symm, ?_, h1, h2⟩
    rw [show st.marks.map (fun m =>
        if m.enrollment_id ∈ ([] : List Enrollment).map (·.id) then
          { m with enrollment_id := kid } else m) = st.marks.map (fun m => m) from
      List.map_congr_left (fun m _ => by simp)]
    simp
  | cons d ds ih =>
    intro st hkd h1 h2
    rw [List.foldl_cons]
    obtain ⟨p1, p2, p3, p4⟩ := processDupEnroll_parts st kid d.id
    obtain ⟨p5, p6⟩ := processDupEnroll_att_nodup st kid d.id (hkd d (List.mem_cons_self d ds)) h1 h2
    obtain ⟨q1, q2, q3, q4, q5, q6⟩ := ih (processDupEnroll st kid d.id)
      (fun d' hd' => hkd d' (List.mem_cons_of_mem d hd')) p5 p6
    refine ⟨q1.trans p1, q2.trans p2, ?_, ?_, q5, q6⟩
    · rw [q3, p3, List.filter_filter]
      refine List.filter_congr (fun e _ => ?_)
      by_cases hc1 : e.id = d.id <;> by_cases hc2 : e.id ∈ ds.map (·.id) <;>
        simp [hc1, hc2]
    · rw [q4, p4, List.map_map]
      refine List.map_congr_left (fun m _ => ?_)
      simp only [Function.comp]
      by_cases hd1 : m.enrollment_id = d.id
      · have hkid : kid ∉ ds.map (·.id) := by
          intro hmem
          obtain ⟨d', hd', hid'⟩ := List.mem_map.mp hmem
          exact hkd d' (List.mem_cons_of_mem d hd') hid'.symm
        rw [if_pos hd1]
        rw [show (({ m with enrollment_id := kid } : Mark).enrollment_id ∈
            ds.map (·.id)) = (kid ∈ ds.map (·.id)) from rfl] at *
        rw [if_neg hkid, if_pos (by simp [hd1])]
      · rw [if_neg hd1]
        by_cases hds : m.enrollment_id ∈ ds.map (·.id)
        · rw [if_pos hds, if_pos (by simp [hds])]
        · rw [if_neg hds, if_neg (by
            simp only [List.map_cons, List.mem_cons]
            rintro (h | h)
            · exact hd1 h
            · exact hds h)]

lemma enrollGroupStep_counts (st : Store) (p : ℕ × ℕ)
    (hEids : (st.enrollments.map (·.id)).Nodup)
    (hattids : (st.attendance.map (·.id)).Nodup)
    (hatteids : (st.attendance.map (·.enrollment_id)).Nodup) :
    ((enrollGroupStep st p).enrollments.map (·.id)).Nodup ∧
    ((enrollGroupStep st p).attendance.map (·.id)).Nodup ∧
    ((enrollGroupStep st p).attendance.map (·.enrollment_id)).Nodup ∧
    (enrollGroupStep st p).students = st.students ∧
    (enrollGroupStep st p).courses = st.courses ∧
    (enrollGroupStep st p).enrollments.countP
      (fun e => (e.student_id, e.course_id) = p) ≤ 1 ∧
    (∀ r, r ≠ p → (enrollGroupStep st p).enrollments.countP
      (fun e => (e.student_id, e.course_id) = r) =
      st.enrollments.countP (fun e => (e.student_id, e.course_id) = r)) := by
  have hfilpair : st.enrollments.filter (fun e => e.student_id = p.1 ∧ e.course_id = p.2) =
      st.enrollments.filter (fun e => (e.student_id, e.course_id) = p) := by
    refine List.filter_congr (fun e _ => ?_)
    by_cases h1 : e.student_id = p.1 <;> by_cases h2 : e.course_id = p.2 <;>
      simp [h1, h2, Prod.ext_iff]
  rcases hg : sortById (·.id) (st.enrollments.filter (fun e =>
      e.student_id = p.1 ∧ e.course_id = p.2)) with _ | ⟨keep, _ | ⟨d, ds⟩⟩
  · have hstep : enrollGroupStep st p = st := by
      unfold enrollGroupStep
      rw [hg]
    rw [hstep]
    refine ⟨hEids, hattids, hatteids, rfl, rfl, ?_, fun r hr => rfl⟩
    have hperm := sortById_perm (·.id) (st.enrollments.filter (fun e =>
      e.student_id = p.1 ∧ e.course_id = p.2))
    rw [hg] at hperm
    have hfil := List.Perm.eq_nil hperm.symm
    rw [hfilpair] at hfil
    rw [List.countP_eq_length_filter, hfil]
    simp
  · have hstep : enrollGroupStep st p = st := by
      unfold enrollGroupStep
      rw [hg]
    rw [hstep]
    refine ⟨hEids, hattids, hatteids, rfl, rfl, ?_, fun r hr => rfl⟩
    have hperm := sortById_perm (·.id) (st.enrollments.filter (fun e =>
      e.student_id = p.1 ∧ e.course_id = p.2))
    rw [hg] at hperm
    rw [List.countP_eq_length_filter, ← hfilpair, ← hperm.length_eq]
    simp
  · have hstep : enrollGroupStep st p =
        (d :: ds).foldl (fun s x => processDupEnroll s keep.id x.id) st := by
      unfold enrollGroupStep
      rw [hg]
    have hgperm := sortById_perm (·.id) (st.enrollments.filter (fun e =>
      e.student_id = p.1 ∧ e.course_id = p.2))
    rw [hg] at hgperm
    have hgids : ((keep :: d :: ds).map (·.id)).Nodup := by
      refine List.Perm.nodup (l := (st.enrollments.filter (fun e =>
        e.student_id = p.1 ∧ e.course_id = p.2)).map (·.id)) ?_ ?_
      · exact (hgperm.map _).symm
      · exact nodup_map_filter _ hEids _
    have hkd : ∀ d' ∈ d :: ds, keep.id ≠ d'.id := by
      have h' : (keep.id :: (d :: ds).map (·.id)).Nodup := hgids
      intro d' hd' heq
      exact (List.nodup_cons.mp h').1 (List.mem_map.mpr ⟨d', hd', heq.symm⟩)
    obtain ⟨f1, f2, f3, f4, f5, f6⟩ := processFold_facts keep.id (d :: ds) st hkd hattids hatteids
    rw [hstep]
    have hgrp' : sortById (·.id) (st.enrollments.filter (fun e =>
        (e.student_id, e.course_id) = p)) = keep :: d :: ds := by
      rw [← hfilpair]
      exact hg
    refine ⟨?_, f5, f6, f1, f2, ?_, ?_⟩
    · rw [f3]
      exact nodup_map_filter _ hEids _
    · rw [f3]
      exact resolve_countP_le_one (fun e : Enrollment => e.id)
        (fun e : Enrollment => (e.student_id, e.course_id)) hEids hgrp'
    · intro r hr
      rw [f3]
      exact resolve_countP_eq (fun e : Enrollment => e.id)
        (fun e : Enrollment => (e.student_id, e.course_id)) hEids hgrp' r hr

lemma enrollmentPass_facts (st : Store)
    (hEids : (st.enrollments.map (·.id)).Nodup)
    (hattids : (st.attendance.map (·.id)).Nodup)
    (hatteids : (st.attendance.map (·.enrollment_id)).Nodup) :
    ((enrollmentPass st).enrollments.map (fun e => (e.student_id, e.course_id))).Nodup ∧
    (enrollmentPass st).students = st.students ∧
    (enrollmentPass st).courses = st.courses ∧
    ((enrollmentPass st).attendance.map (·.enrollment_id)).Nodup := by
  have hstep_inv : ∀ (s : Store) (k : ℕ × ℕ),
      ((s.enrollments.map (·.id)).Nodup ∧ (s.attendance.map (·.id)).Nodup ∧
        (s.attendance.map (·.enrollment_id)).Nodup) →
      ((enrollGroupStep s k).enrollments.map (·.id)).Nodup ∧
        ((enrollGroupStep s k).attendance.map (·.id)).Nodup ∧
        ((enrollGroupStep s k).attendance.map (·.enrollment_id)).Nodup := by
    intro s k h
    obtain ⟨g1, g2, g3, _, _, _, _⟩ := enrollGroupStep_counts s k h.1 h.2.1 h.2.2
    exact ⟨g1, g2, g3⟩
  obtain ⟨hinv, hin, hout⟩ := foldl_step_counts enrollGroupStep
      (fun s k => s.enrollments.countP (fun e => (e.student_id, e.course_id) = k))
      (fun s => (s.enrollments.map (·.id)).Nodup ∧ (s.attendance.map (·.id)).Nodup ∧
        (s.attendance.map (·.enrollment_id)).Nodup)
      hstep_inv
      (fun s k h => (enrollGroupStep_counts s k h.1 h.2.1 h.2.2).2.2.2.2.2.1)
      (fun s k r h hr => (enrollGroupStep_counts s k h.1 h.2.1 h.2.2).2.2.2.2.2.2 r hr)
      (dupKeys (st.enrollments.map (fun e => (e.student_id, e.course_id)))) st
      ⟨hEids, hattids, hatteids⟩
  refine ⟨?_,
    foldl_preserves_of_inv enrollGroupStep _ (fun s => s.students) hstep_inv
      (fun s k h => (enrollGroupStep_counts s k h.1 h.2.1 h.2.2).2.2.2.1) _ st
      ⟨hEids, hattids, hatteids⟩,
    foldl_preserves_of_inv enrollGroupStep _ (fun s => s.courses) hstep_inv
      (fun s k h => (enrollGroupStep_counts s k h.1 h.2.1 h.2.2).2.2.2.2.1) _ st
      ⟨hEids, hattids, hatteids⟩,
    hinv.2.2⟩
  refine nodup_map_of_countP_le_one (fun e : Enrollment => (e.student_id, e.course_id))
    (fun r => ?_)
  show (enrollmentPass st).enrollments.countP
    (fun e => (e.student_id, e.course_id) = r) ≤ 1
  unfold enrollmentPass
  by_cases hr : r ∈ dupKeys (st.enrollments.map (fun e => (e.student_id, e.course_id)))
  · exact hin r hr
  · rw [hout r hr, ← count_map_key (fun e : Enrollment => (e.student_id, e.course_id))
      st.enrollments r]
    have h2 := hr
    rw [mem_dupKeys] at h2
    omega

/-- On a store with unique primary keys, one run of `cleanup_duplicates`
establishes all four uniqueness invariants. -/
lemma cleanup_clean (st : Store) (h : st.WF) : (cleanup_duplicates st).Clean := by
  obtain ⟨hs, hc, he, ha, _⟩ := h
  have S := studentPass_facts st hs
  have hc1 : ((studentPass st).courses.map (·.id)).Nodup := by
    rw [S.2.2.1]
    exact hc
  have C := coursePass_facts (studentPass st) hc1
  have ha2 : ((coursePass (studentPass st)).attendance.map (·.id)).Nodup := by
    rw [C.2.2.2.1, S.2.2.2.1]
    exact ha
  have A := attendancePass_facts (coursePass (studentPass st)) ha2
  have he3 : ((attendancePass (coursePass (studentPass st))).enrollments.map (·.id)).Nodup := by
    rw [A.2.2.2.2.1, C.2.2.2.2.2, S.2.2.2.2.2]
    exact he
  have E := enrollmentPass_facts (attendancePass (coursePass (studentPass st)))
    he3 A.1 A.2.1
  show (enrollmentPass (attendancePass (coursePass (studentPass st)))).Clean
  refine ⟨?_, ?_, E.2.2.2, E.1⟩
  · rw [E.2.1, A.2.2.1, C.2.2.1]
    exact S.2.1
  · rw [E.2.2.1, A.2.2.2.1]
    exact C.2.1

/-- A store already satisfying the uniqueness invariants is a fixed point of
`cleanup_duplicates`. -/
lemma clean_cleanup_eq (st : Store) (h : st.Clean) : cleanup_duplicates st = st := by
  obtain ⟨h1, h2, h3, h4⟩ := h
  unfold cleanup_duplicates studentPass coursePass attendancePass enrollmentPass
  rw [dupKeys_eq_nil_of_nodup h1, List.foldl_nil, dupKeys_eq_nil_of_nodup h2,
    List.foldl_nil, dupKeys_eq_nil_of_nodup h3, List.foldl_nil,
    dupKeys_eq_nil_of_nodup h4, List.foldl_nil]

/-! ## Claim C7: the percentage helper -/

/-- C7: `_pct` returns `round(numerator/denominator*100, 2)` when the
denominator is positive and an absent value (not zero, not an error)
otherwise; in particular `_pct 33 99 = 33.33` and `_pct 0 0` is undefined. -/
theorem pct_round_or_none :
    (∀ numer denom : ℚ,
      (0 < denom → pct numer denom = some (round2 (numer / denom * 100))) ∧
      (denom ≤ 0 → pct numer denom = none)) ∧
    pct 33 99 = some (33.33 : ℚ) ∧ pct 0 0 = none := by
  refine ⟨fun numer denom => ⟨fun h => ?_, fun h => ?_⟩, ?_, ?_⟩
  · simp [pct, not_le.mpr h]
  · simp [pct, h]
  · norm_num [pct, round2, roundHalfEven]
  · rfl

/-- Witness for C7 at `numer = 33`, `denom = 99` and `denom = 0`. -/
theorem pct_round_or_none_witness :
    (0 < (99 : ℚ)) ∧ pct 33 99 = some (round2 (33 / 99 * 100)) ∧
    ((0 : ℚ) ≤ 0) ∧ pct 0 0 = none :=
  ⟨by norm_num, (pct_round_or_none.1 33 99).1 (by norm_num), le_refl 0,
    (pct_round_or_none.1 0 0).2 (le_refl 0)⟩

/-! ## Claim C1: the transaction boundary -/

/-- C1: inside `session_scope`, a body that returns normally is committed and
the handle released; if the body or the commit raises, the committed store is
left exactly as it was, the handle is released, and the same error is
re-raised. -/
theorem session_scope_commit_rollback {E α : Type} (commitFails : Store → Option E)
    (db : Store) (fn : Store → Outcome E α × Store) :
    (∀ a work, fn db = (.ok a, work) → commitFails work = none →
      session_scope commitFails db fn = (.ok a, work, true)) ∧
    (∀ a work e, fn db = (.ok a, work) → commitFails work = some e →
      session_scope commitFails db fn = (.raised e, db, true)) ∧
    (∀ e work, fn db = (.raised e, work) →
      session_scope commitFails db fn = (.raised e, db, true)) := by
  refine ⟨fun a work h1 h2 => ?_, fun a work e h1 h2 => ?_, fun e work h1 => ?_⟩
  · simp [session_scope, h1, h2]
  · simp [session_scope, h1, h2]
  · simp [session_scope, h1]

/-- Witness for C1: a committing body, a failing commit, and a raising body,
each on a concrete store. -/
theorem session_scope_commit_rollback_witness :
    session_scope (fun _ => (none : Option Unit)) emptyStore
        (fun s => (Outcome.ok (0 : ℕ), s)) = (Outcome.ok 0, emptyStore, true) ∧
    session_scope (fun _ => some ()) emptyStore
        (fun s => (Outcome.ok (0 : ℕ), s)) = (Outcome.raised (), emptyStore, true) ∧
    session_scope (fun _ => (none : Option Unit)) emptyStore
        (fun s => ((Outcome.raised () : Outcome Unit ℕ), s)) =
      (Outcome.raised (), emptyStore, true) :=
  ⟨(session_scope_commit_rollback _ _ _).1 0 emptyStore rfl rfl,
   (session_scope_commit_rollback _ _ _).2.1 0 emptyStore () rfl rfl,
   (session_scope_commit_rollback _ _ _).2.2 () emptyStore rfl⟩

/-! ## Claim C6: add_mark -/

/-- C6: `add_mark` fails when the enrollment is absent, when `max <= 0`, and
when `obtained` is outside `[0, max]`; a failing call inserts no Mark row (the
store that leaves the transaction boundary is the one that entered it); a
successful call always appends one new Mark — never overwriting — whose
assessment label falls back to `"Exam"` when blank after trimming. -/
theorem add_mark_spec (st : Store) (eid : ℕ) (assessment : String)
    (obtained maxm : ℚ) (today : ℤ) :
    (st.enrollments.find? (fun e => e.id = eid) = none →
      add_mark st eid assessment obtained maxm today = .error ⟨"Enrollment not found."⟩) ∧
    ((st.enrollments.find? (fun e => e.id = eid)).isSome = true → maxm ≤ 0 →
      add_mark st eid assessment obtained maxm today = .error ⟨"Max marks must be > 0."⟩) ∧
    ((st.enrollments.find? (fun e => e.id = eid)).isSome = true → 0 < maxm →
      (obtained < 0 ∨ maxm < obtained) →
      add_mark st eid assessment obtained maxm today =
        .error ⟨"Marks obtained must be between 0 and max marks."⟩) ∧
    (∀ err, add_mark st eid assessment obtained maxm today = .error err →
      runService st (fun s => add_mark s eid assessment obtained maxm today) =
        (.raised err, st, true)) ∧
    (∀ st' m, add_mark st eid assessment obtained maxm today = .ok (st', m) →
      st'.marks = st.marks ++ [m] ∧
      st'.students = st.students ∧ st'.courses = st.courses ∧
      st'.enrollments = st.enrollments ∧ st'.attendance = st.attendance ∧
      m.assessment = (if assessment.trim = "" then "Exam" else assessment.trim) ∧
      m.enrollment_id = eid ∧ m.marks_obtained = obtained ∧ m.max_marks = maxm) := by
  refine ⟨fun h => ?_, fun h1 h2 => ?_, fun h1 h2 h3 => ?_, fun err h => ?_, fun st' m h => ?_⟩
  · simp [add_mark, h]
  · obtain ⟨e, he⟩ := Option.isSome_iff_exists.mp h1
    simp [add_mark, he, h2]
  · obtain ⟨e, he⟩ := Option.isSome_iff_exists.mp h1
    have hnle : ¬ maxm ≤ 0 := not_le.mpr h2
    simp only [add_mark, he, if_neg hnle]
    rw [if_pos h3]
  · simp [runService, session_scope, h]
  · rcases hfind : st.enrollments.find? (fun e => e.id = eid) with _ | e
    · simp [add_mark, hfind] at h
    · simp only [add_mark, hfind] at h
      split_ifs at h with hc1 hc2 hc3 <;>
        · simp only [Except.ok.injEq, Prod.mk.injEq] at h
          obtain ⟨hst, hm⟩ := h
          subst hm
          subst hst
          simp [hc3]



/-- Witness for C6: the spec's failing calls `add_mark(e, obtained=-1, max=50)`
and `add_mark(e, obtained=10, max=0)`, and the unchanged store after a failing
call. -/
theorem add_mark_spec_witness :
    add_mark svcSt 1 "Quiz" (-1) 50 0 =
      .error ⟨"Marks obtained must be between 0 and max marks."⟩ ∧
    add_mark svcSt 1 "Quiz" 10 0 0 = .error ⟨"Max marks must be > 0."⟩ ∧
    runService svcSt (fun s => add_mark s 1 "Quiz" 10 0 0) =
      (.raised ⟨"Max marks must be > 0."⟩, svcSt, true) :=
  ⟨(add_mark_spec svcSt 1 "Quiz" (-1) 50 0).2.2.1 (by rfl) (by norm_num)
      (Or.inl (by norm_num)),
   (add_mark_spec svcSt 1 "Quiz" 10 0 0).2.1 (by rfl) (by norm_num),
   (add_mark_spec svcSt 1 "Quiz" 10 0 0).2.2.2.1 _
      ((add_mark_spec svcSt 1 "Quiz" 10 0 0).2.1 (by rfl) (by norm_num))⟩

/-! ## Claim C5: set_attendance -/

/-- C5: `set_attendance` fails when the enrollment is absent, when a value is
negative, and when attended exceeds total; a failing call leaves the store
unchanged through the transaction boundary; a successful call creates the row
on first use and thereafter overwrites it in place, keeping exactly one
Attendance row for the enrollment. -/
theorem set_attendance_spec (st : Store) (eid : ℕ) (total attended : ℤ) :
    (st.enrollments.find? (fun e => e.id = eid) = none →
      set_attendance st eid total attended = .error ⟨"Enrollment not found."⟩) ∧
    ((st.enrollments.find? (fun e => e.id = eid)).isSome = true →
      (total < 0 ∨ attended < 0) →
      set_attendance st eid total attended = .error ⟨"Attendance values must be >= 0."⟩) ∧
    ((st.enrollments.find? (fun e => e.id = eid)).isSome = true →
      0 ≤ total → 0 ≤ attended → total < attended →
      set_attendance st eid total attended =
        .error ⟨"Attended classes cannot exceed total classes."⟩) ∧
    (∀ err, set_attendance st eid total attended = .error err →
      runService st (fun s => set_attendance s eid total attended) =
        (.raised err, st, true)) ∧
    (∀ st' a, set_attendance st eid total attended = .ok (st', a) →
      a.enrollment_id = eid ∧ a.total_classes = total ∧ a.attended_classes = attended ∧
      st'.students = st.students ∧ st'.courses = st.courses ∧
      st'.enrollments = st.enrollments ∧ st'.marks = st.marks ∧
      (st.attendance.find? (fun x => x.enrollment_id = eid) = none →
        st'.attendance = st.attendance ++ [a]) ∧
      (∀ a0, st.attendance.find? (fun x => x.enrollment_id = eid) = some a0 →
        a.id = a0.id ∧
        st'.attendance = st.attendance.map (fun x => if x.id = a0.id then a else x)) ∧
      ((st.attendance.map (·.id)).Nodup →
        (st.attendance.filter (fun x => x.enrollment_id = eid)).length ≤ 1 →
        (st'.attendance.filter (fun x => x.enrollment_id = eid)).length = 1)) := by
  refine ⟨fun h => ?_, fun h1 h2 => ?_, fun h1 h2 h3 h4 => ?_, fun err h => ?_,
    fun st' a h => ?_⟩
  · simp [set_attendance, h]
  · obtain ⟨e, he⟩ := Option.isSome_iff_exists.mp h1
    simp only [set_attendance, he]
    rw [if_pos h2]
  · obtain ⟨e, he⟩ := Option.isSome_iff_exists.mp h1
    simp only [set_attendance, he]
    rw [if_neg (by omega), if_pos (by omega)]
  · simp [runService, session_scope, h]
  · rcases hfindE : st.enrollments.find? (fun e => e.id = eid) with _ | e
    · simp [set_attendance, hfindE] at h
    · simp only [set_attendance, hfindE] at h
      split_ifs at h with h1 h2
      rcases hfindA : st.attendance.find? (fun x => x.enrollment_id = eid) with _ | a0
      · rw [hfindA] at h
        simp only [Except.ok.injEq, Prod.mk.injEq] at h
        obtain ⟨hst, ha⟩ := h
        subst ha
        subst hst
        refine ⟨rfl, rfl, rfl, rfl, rfl, rfl, rfl, fun _ => rfl, ?_, fun hnd hle => ?_⟩
        · intro a0 h0
          rw [hfindA] at h0
          cases h0
        · rw [List.filter_append]
          have hnil : st.attendance.filter (fun x => x.enrollment_id = eid) = [] := by
            rw [List.filter_eq_nil_iff]
            intro x hx
            simpa using List.find?_eq_none.mp hfindA x hx
          rw [hnil]
          simp
      · rw [hfindA] at h
        have ha0mem := List.mem_of_find?_eq_some hfindA
        have ha0eid : a0.enrollment_id = eid := by simpa using List.find?_some hfindA
        simp only [Except.ok.injEq, Prod.mk.injEq] at h
        obtain ⟨hst, ha⟩ := h
        subst ha
        subst hst
        refine ⟨ha0eid, rfl, rfl, rfl, rfl, rfl, rfl, ?_, fun a1 h1 => ?_, fun hnd hle => ?_⟩
        · intro h0
          rw [hfindA] at h0
          cases h0
        · rw [hfindA] at h1
          cases h1
          exact ⟨rfl, rfl⟩
        · rw [← List.countP_eq_length_filter, List.countP_map]
          have hcong : st.attendance.countP
              ((fun x => decide (x.enrollment_id = eid)) ∘
                (fun x => if x.id = a0.id then
                  { a0 with total_classes := total, attended_classes := attended } else x)) =
              st.attendance.countP (fun x => x.enrollment_id = eid) := by
            refine List.countP_congr (fun x hx => ?_)
            by_cases hid : x.id = a0.id
            · have hx0 : x = a0 := eq_of_id_eq (·.id) hnd hx ha0mem hid
              subst hx0
              simp [hid, ha0eid]
            · simp [hid]
          rw [hcong]
          have hge : 0 < st.attendance.countP (fun x => x.enrollment_id = eid) :=
            List.countP_pos_iff.mpr ⟨a0, ha0mem, by simpa using ha0eid⟩
          have hle' : st.attendance.countP (fun x => x.enrollment_id = eid) ≤ 1 := by
            rw [List.countP_eq_length_filter]
            exact hle
          omega

/-- Witness for C5: the spec's scenario `set_attendance(e, total=40, attended=50)`
fails with the exceeds-total error and leaves the store unchanged; a valid call
overwrites the existing row in place. -/
theorem set_attendance_spec_witness :
    set_attendance svcSt 1 40 50 =
      .error ⟨"Attended classes cannot exceed total classes."⟩ ∧
    runService svcSt (fun s => set_attendance s 1 40 50) =
      (.raised ⟨"Attended classes cannot exceed total classes."⟩, svcSt, true) ∧
    (({ svcSt with attendance := [⟨1, 1, 40, 20⟩] } : Store).attendance.filter
        (fun x => x.enrollment_id = 1)).length = 1 := by
  refine ⟨?_, ?_, ?_⟩
  · exact (set_attendance_spec svcSt 1 40 50).2.2.1 (by rfl) (by norm_num) (by norm_num)
      (by norm_num)
  · exact (set_attendance_spec svcSt 1 40 50).2.2.2.1 _
      ((set_attendance_spec svcSt 1 40 50).2.2.1 (by rfl) (by norm_num) (by norm_num)
        (by norm_num))
  · exact ((set_attendance_spec svcSt 1 40 20).2.2.2.2
      { svcSt with attendance := [⟨1, 1, 40, 20⟩] } ⟨1, 1, 40, 20⟩
      (by rfl)).2.2.2.2.2.2.2.2.2 (by decide) (by decide)

/-! ## Claim C9: student create/update validation -/

/-- C9 counterexample: `create_student` accepts a whitespace-only roll number
and persists the student with the empty string as its roll number, so the
operation does not fail on empty input. -/
theorem create_student_accepts_empty_roll :
    create_student emptyStore "   " "Alice" none none none none =
      .ok ({ emptyStore with students := [⟨1, "", "Alice", none, none, none, none⟩] },
        ⟨1, "", "Alice", none, none, none, none⟩) := by
  with_unfolding_all rfl

/-- C9 amended: `create_student` and `update_student` trim the roll number and
name but perform no non-emptiness validation: whenever the trimmed roll number
collides with no other student the operation succeeds and persists the trimmed
values — also when the roll number or the name trims to the empty string. -/
theorem student_ops_trim_without_validation (st : Store) (roll name : String)
    (dep : Option String) (sem : Option ℤ) (em ph : Option String) :
    ((∀ s ∈ st.students, s.roll_no ≠ roll.trim) →
      ∃ s', create_student st roll name dep sem em ph =
          .ok ({ st with students := st.students ++ [s'] }, s') ∧
        s'.roll_no = roll.trim ∧ s'.name = name.trim) ∧
    (∀ sid s0, st.students.find? (fun s => s.id = sid) = some s0 →
      (∀ s ∈ st.students, s.id ≠ sid → s.roll_no ≠ roll.trim) →
      ∃ s1, update_student st sid roll name dep sem em ph =
          .ok ({ st with
                  students := st.students.map (fun s => if s.id = sid then s1 else s) },
            s1) ∧
        s1.roll_no = roll.trim ∧ s1.name = name.trim) := by
  constructor
  · intro h
    have hcond : ¬ (st.students.any (fun s => s.roll_no = roll.trim) = true) := by
      simp only [List.any_eq_true, not_exists]
      intro s
      rintro ⟨hs, heq⟩
      exact h s hs (by simpa using heq)
    refine ⟨Student.mk (freshId (st.students.map (fun s => s.id))) roll.trim name.trim
      (stripOpt dep) sem (stripOpt em) (stripOpt ph), ?_, rfl, rfl⟩
    simp only [create_student]
    rw [if_neg hcond]
  · intro sid s0 hfind h
    have hcond : ¬ (st.students.any (fun s => s.id ≠ sid ∧ s.roll_no = roll.trim) = true) := by
      simp only [List.any_eq_true, not_exists]
      intro s
      rintro ⟨hs, heq⟩
      simp only [decide_eq_true_eq] at heq
      exact h s hs heq.1 heq.2
    refine ⟨Student.mk s0.id roll.trim name.trim
      (stripOpt dep) sem (stripOpt em) (stripOpt ph), ?_, rfl, rfl⟩
    simp only [update_student, hfind]
    rw [if_neg hcond]

/-- Witness for C9's amended theorem: creating a student with padded roll
number and name persists the trimmed values. -/
theorem student_ops_trim_without_validation_witness :
    ∃ s', create_student emptyStore " X1 " " Bob " none none none none =
        .ok ({ emptyStore with students := emptyStore.students ++ [s'] }, s') ∧
      s'.roll_no = " X1 ".trim ∧ s'.name = " Bob ".trim :=
  (student_ops_trim_without_validation emptyStore " X1 " " Bob "
    none none none none).1 (by simp [emptyStore])

/-! ## Claim C2: at-risk detection -/

/-- C2: an enrollment is flagged by at-risk detection iff its attendance
percentage is defined and strictly below the attendance threshold, or its
marks percentage is defined and strictly below the marks threshold; the reason
string joins "Low attendance" and/or "Low marks" as applicable; an undefined
percentage never flags its dimension; flagged enrollments appear in the
report. -/
theorem find_at_risk_flags_iff (st : Store) (tA tM : ℚ) (e : Enrollment) :
    ((atRiskEntry st tA tM e).isSome = true ↔
      (∃ p, enrollmentAttendancePct st e.id = some p ∧ p < tA) ∨
      (∃ p, enrollmentMarksPct st e.id = some p ∧ p < tM)) ∧
    (∀ r, atRiskEntry st tA tM e = some r →
      r.enrollment_id = e.id ∧
      r.attendance_pct = enrollmentAttendancePct st e.id ∧
      r.marks_pct = enrollmentMarksPct st e.id ∧
      (((∃ p, enrollmentAttendancePct st e.id = some p ∧ p < tA) ∧
        (∃ p, enrollmentMarksPct st e.id = some p ∧ p < tM)) →
        r.reason = "Low attendance, Low marks") ∧
      ((∃ p, enrollmentAttendancePct st e.id = some p ∧ p < tA) →
        ¬ (∃ p, enrollmentMarksPct st e.id = some p ∧ p < tM) →
        r.reason = "Low attendance") ∧
      (¬ (∃ p, enrollmentAttendancePct st e.id = some p ∧ p < tA) →
        (∃ p, enrollmentMarksPct st e.id = some p ∧ p < tM) →
        r.reason = "Low marks")) ∧
    (e ∈ st.enrollments → ∀ r, atRiskEntry st tA tM e = some r →
      r ∈ find_at_risk st tA tM) := by
  refine ⟨?_, ?_, fun he r hr => List.mem_filterMap.mpr ⟨e, he, hr⟩⟩
  · rcases hA : enrollmentAttendancePct st e.id with _ | pA <;>
      rcases hM : enrollmentMarksPct st e.id with _ | pM
    · simp [atRiskEntry, hA, hM]
    · by_cases hpm : pM < tM <;> simp [atRiskEntry, hA, hM, hpm]
    · by_cases hpa : pA < tA <;> simp [atRiskEntry, hA, hM, hpa]
    · by_cases hpa : pA < tA <;> by_cases hpm : pM < tM <;>
        simp [atRiskEntry, hA, hM, hpa, hpm]
  · intro r hr
    rcases hA : enrollmentAttendancePct st e.id with _ | pA <;>
      rcases hM : enrollmentMarksPct st e.id with _ | pM
    · simp [atRiskEntry, hA, hM] at hr
    · by_cases hpm : pM < tM
      · simp only [atRiskEntry, hA, hM] at hr
        rw [if_pos (by simp [hpm])] at hr
        obtain rfl := (Option.some_inj.mp hr).symm
        refine ⟨rfl, rfl, rfl, ?_, ?_, ?_⟩
        · rintro ⟨⟨p, hp, -⟩, -⟩
          cases hp
        · rintro ⟨p, hp, -⟩
          cases hp
        · intro _ _
          show ", ".intercalate _ = _
          rw [if_neg (by simp), if_pos (decide_eq_true hpm)]
          rfl
      · simp [atRiskEntry, hA, hM, hpm] at hr
    · by_cases hpa : pA < tA
      · simp only [atRiskEntry, hA, hM] at hr
        rw [if_pos (by simp [hpa])] at hr
        obtain rfl := (Option.some_inj.mp hr).symm
        refine ⟨rfl, rfl, rfl, ?_, ?_, ?_⟩
        · rintro ⟨-, p, hp, -⟩
          cases hp
        · intro _ _
          show ", ".intercalate _ = _
          rw [if_pos (decide_eq_true hpa), if_neg (by simp)]
          rfl
        · rintro - ⟨p, hp, -⟩
          cases hp
      · simp [atRiskEntry, hA, hM, hpa] at hr
    · by_cases hpa : pA < tA <;> by_cases hpm : pM < tM
      · simp only [atRiskEntry, hA, hM] at hr
        rw [if_pos (by simp [hpa])] at hr
        obtain rfl := (Option.some_inj.mp hr).symm
        refine ⟨rfl, rfl, rfl, ?_, ?_, ?_⟩
        · intro _
          show ", ".intercalate _ = _
          rw [if_pos (decide_eq_true hpa), if_pos (decide_eq_true hpm)]
          rfl
        · intro _ hcon
          exact absurd ⟨pM, rfl, hpm⟩ hcon
        · intro hcon _
          exact absurd ⟨pA, rfl, hpa⟩ hcon
      · simp only [atRiskEntry, hA, hM] at hr
        rw [if_pos (by simp [hpa])] at hr
        obtain rfl := (Option.some_inj.mp hr).symm
        refine ⟨rfl, rfl, rfl, ?_, ?_, ?_⟩
        · rintro ⟨-, p, hp, hlt⟩
          cases hp
          exact absurd hlt hpm
        · intro _ _
          show ", ".intercalate _ = _
          rw [if_pos (decide_eq_true hpa), if_neg (by simp [hpm])]
          rfl
        · rintro hcon -
          exact absurd ⟨pA, rfl, hpa⟩ hcon
      · simp only [atRiskEntry, hA, hM] at hr
        rw [if_pos (by simp [hpm])] at hr
        obtain rfl := (Option.some_inj.mp hr).symm
        refine ⟨rfl, rfl, rfl, ?_, ?_, ?_⟩
        · rintro ⟨⟨p, hp, hlt⟩, -⟩
          cases hp
          exact absurd hlt hpa
        · rintro ⟨p, hp, hlt⟩ -
          cases hp
          exact absurd hlt hpa
        · intro _ _
          show ", ".intercalate _ = _
          rw [if_neg (by simp [hpa]), if_pos (decide_eq_true hpm)]
          rfl
      · simp [atRiskEntry, hA, hM, hpa, hpm] at hr



/-- Witness for C2: the spec's scenario is flagged, and only for low
attendance, under thresholds (75, 40). -/
theorem find_at_risk_flags_iff_witness :
    (atRiskEntry riskSt 75 40 ⟨1, 1, 1, 0⟩).isSome = true ∧
    (find_at_risk riskSt 75 40).map (fun r => r.reason) = ["Low attendance"] := by
  constructor
  · exact (find_at_risk_flags_iff riskSt 75 40 ⟨1, 1, 1, 0⟩).1.mpr
      (Or.inl ⟨50, by with_unfolding_all decide, by norm_num⟩)
  · with_unfolding_all decide

/-! ## Claim C10: zero-denominator attendance on the read path -/



/-- Filtering away only rows the search predicate rejects does not change the
result of `find?`. -/
lemma find?_filter_of_imp {α : Type} (l : List α) (p q : α → Bool)
    (h : ∀ x, p x = true → q x = true) :
    (l.filter q).find? p = l.find? p := by
  induction l with
  | nil => rfl
  | cons a l ih =>
    by_cases hq : q a = true
    · rw [List.filter_cons_of_pos hq]
      by_cases hp : p a = true
      · rw [List.find?_cons_of_pos _ hp, List.find?_cons_of_pos _ hp]
      · rw [List.find?_cons_of_neg _ hp, List.find?_cons_of_neg _ hp, ih]
    · rw [List.filter_cons_of_neg hq]
      have hp : ¬ p a = true := fun hpa => hq (h a hpa)
      rw [List.find?_cons_of_neg _ hp, ih]

/-- C10: when an enrollment's Attendance row has `total_classes = 0`, the read
path computes its attendance percentage as undefined, exactly as if the row
were absent — removing the row changes neither the summaries nor the at-risk
report — and the enrollment is never flagged for low attendance. -/
theorem zero_total_attendance_never_low (st : Store) (e : Enrollment) (a : Attendance)
    (ha : st.attendanceOf e.id = some a) (h0 : a.total_classes = 0) :
    enrollmentAttendancePct st e.id = none ∧
    (∀ tA tM r, atRiskEntry st tA tM e = some r → r.reason = "Low marks") ∧
    (∀ sid, get_student_enrollment_summaries st sid =
      get_student_enrollment_summaries (removeAttendanceFor st e.id) sid) ∧
    (∀ tA tM, find_at_risk st tA tM = find_at_risk (removeAttendanceFor st e.id) tA tM) := by
  have hA : enrollmentAttendancePct st e.id = none := by
    simp only [enrollmentAttendancePct, ha, h0]
    simp [pct]
  have hremNone : (removeAttendanceFor st e.id).attendanceOf e.id = none := by
    rw [Store.attendanceOf, List.find?_eq_none]
    intro x hx
    have := (List.mem_filter.mp hx).2
    simpa using this
  have hpct : ∀ eid', enrollmentAttendancePct (removeAttendanceFor st e.id) eid' =
      enrollmentAttendancePct st eid' := by
    intro eid'
    by_cases heq : eid' = e.id
    · subst heq
      rw [hA]
      simp only [enrollmentAttendancePct, hremNone]
      simp [pct]
    · have hfind : (removeAttendanceFor st e.id).attendanceOf eid' = st.attendanceOf eid' := by
        rw [Store.attendanceOf, Store.attendanceOf]
        refine find?_filter_of_imp _ _ _ (fun x hx => ?_)
        simp only [decide_eq_true_eq] at hx
        simpa using hx ▸ heq
      simp only [enrollmentAttendancePct, hfind]
  have hent : ∀ tA tM e'', atRiskEntry (removeAttendanceFor st e.id) tA tM e'' =
      atRiskEntry st tA tM e'' := by
    intro tA tM e''
    simp only [atRiskEntry]
    rw [hpct]
    rfl
  refine ⟨hA, ?_, ?_, ?_⟩
  · intro tA tM r hr
    simp only [atRiskEntry, hA] at hr
    rcases hM : enrollmentMarksPct st e.id with _ | pM
    · rw [hM] at hr
      simp at hr
    · rw [hM] at hr
      by_cases hpm : pM < tM
      · rw [if_pos (by simp [hpm])] at hr
        obtain rfl := (Option.some_inj.mp hr).symm
        show ", ".intercalate _ = _
        rw [if_neg (by simp), if_pos (decide_eq_true hpm)]
        rfl
      · rw [if_neg (by simp [hpm])] at hr
        cases hr
  · intro sid
    simp only [get_student_enrollment_summaries]
    rw [show (removeAttendanceFor st e.id).enrollments = st.enrollments from rfl]
    refine List.map_congr_left (fun e' he' => ?_)
    rw [show (removeAttendanceFor st e.id).courses = st.courses from rfl, hpct,
      show enrollmentMarksPct (removeAttendanceFor st e.id) e'.id =
        enrollmentMarksPct st e'.id from rfl]
  · intro tA tM
    simp only [find_at_risk]
    rw [show (removeAttendanceFor st e.id).enrollments = st.enrollments from rfl]
    refine List.filterMap_congr (fun e'' he'' => ?_)
    rw [hent]



/-- Witness for C10 on a concrete store with a zero-total Attendance row. -/
theorem zero_total_attendance_never_low_witness :
    enrollmentAttendancePct zeroSt 1 = none ∧
    find_at_risk zeroSt 75 40 = find_at_risk (removeAttendanceFor zeroSt 1) 75 40 :=
  ⟨(zero_total_attendance_never_low zeroSt ⟨1, 1, 1, 0⟩ ⟨1, 1, 0, 0⟩ rfl rfl).1,
   (zero_total_attendance_never_low zeroSt ⟨1, 1, 1, 0⟩ ⟨1, 1, 0, 0⟩ rfl rfl).2.2.2 75 40⟩

/-! ## Claim C8: course class average of marks -/

lemma perm_of_nodup_of_mem_iff {α : Type} [DecidableEq α] {l1 l2 : List α}
    (h1 : l1.Nodup) (h2 : l2.Nodup) (h : ∀ a, a ∈ l1 ↔ a ∈ l2) : l1.Perm l2 := by
  rw [List.perm_iff_count]
  intro a
  by_cases ha : a ∈ l1
  · rw [List.count_eq_one_of_mem h1 ha, List.count_eq_one_of_mem h2 ((h a).mp ha)]
  · rw [List.count_eq_zero.mpr ha, List.count_eq_zero.mpr (fun hc => ha ((h a).mpr hc))]

lemma filterMap_ite {α β : Type} (c : α → Bool) (g : α → β) (l : List α) :
    l.filterMap (fun x => if c x then none else some (g x)) =
      (l.filter (fun x => ! c x)).map g := by
  induction l with
  | nil => rfl
  | cons a l ih =>
    by_cases hc : c a = true <;>
      simp [List.filterMap_cons, List.filter_cons, hc, ih]



/-- C8: the course class average equals the average over exactly the course's
enrollments that have at least one Mark of each enrollment's own marks
percentage, and is undefined iff no enrollment of the course has marks. -/
theorem course_average_per_enrollment (st : Store) (cid : ℕ)
    (hE : (st.enrollments.map (·.id)).Nodup)
    (hM : ∀ m ∈ st.marks, 0 < m.max_marks) :
    course_class_average_marks_pct st cid = classAverageSpec st cid ∧
    (course_class_average_marks_pct st cid = none ↔
      ∀ e ∈ st.enrollments, e.course_id = cid → st.marksOf e.id = []) := by
  have hperm :
      (((st.marks.map (·.enrollment_id)).dedup).filter (fun eid =>
        match st.enrollments.find? (fun e => e.id = eid) with
        | some e => e.course_id = cid
        | none => false)).Perm
      ((((st.enrollments.filter (fun e => e.course_id = cid)).filter
          (fun e => ! (st.marks.filter (fun m => m.enrollment_id = e.id)).isEmpty)).map
        (·.id))) := by
    refine perm_of_nodup_of_mem_iff ((List.nodup_dedup _).filter _) ?_ ?_
    · exact hE.sublist
        ((((st.enrollments.filter _).filter_sublist).trans
          (st.enrollments.filter_sublist)).map _)
    · intro eid
      constructor
      · intro hmem
        obtain ⟨hded, hQ⟩ := List.mem_filter.mp hmem
        rcases hfind : st.enrollments.find? (fun e => e.id = eid) with _ | e0
        · rw [hfind] at hQ
          cases hQ
        · rw [hfind] at hQ
          have he0mem := List.mem_of_find?_eq_some hfind
          have he0id : e0.id = eid := by simpa using List.find?_some hfind
          have hcourse : e0.course_id = cid := by simpa using hQ
          obtain ⟨m, hm, hmeid⟩ := List.mem_map.mp (List.mem_dedup.mp hded)
          refine List.mem_map.mpr ⟨e0, ?_, he0id⟩
          refine List.mem_filter.mpr ⟨List.mem_filter.mpr ⟨he0mem, by simpa using hcourse⟩, ?_⟩
          have : m ∈ st.marks.filter (fun x => x.enrollment_id = e0.id) :=
            List.mem_filter.mpr ⟨hm, by simp [hmeid, he0id]⟩
          rcases hnil : st.marks.filter (fun x => x.enrollment_id = e0.id) with _ | ⟨x, xs⟩
          · rw [hnil] at this
            cases this
          · simp [hnil]
      · intro hmem
        obtain ⟨e0, he0, he0id⟩ := List.mem_map.mp hmem
        obtain ⟨he0', hne⟩ := List.mem_filter.mp he0
        obtain ⟨he0mem, hcourse⟩ := List.mem_filter.mp he0'
        rcases hms : st.marks.filter (fun m => m.enrollment_id = e0.id) with _ | ⟨m0, ms⟩
        · rw [hms] at hne
          cases hne
        · have hm0 : m0 ∈ st.marks.filter (fun m => m.enrollment_id = e0.id) := by
            rw [hms]
            exact List.mem_cons_self _ _
          obtain ⟨hm0mem, hm0eid⟩ := List.mem_filter.mp hm0
          have hm0eid' : m0.enrollment_id = eid := by
            simpa [he0id] using hm0eid
          refine List.mem_filter.mpr ⟨List.mem_dedup.mpr ?_, ?_⟩
          · exact List.mem_map.mpr ⟨m0, hm0mem, hm0eid'⟩
          · have hfindSome : (st.enrollments.find? (fun e => e.id = eid)).isSome = true := by
              rw [List.find?_isSome]
              exact ⟨e0, he0mem, by simp [he0id]⟩
            obtain ⟨e1, hfind⟩ := Option.isSome_iff_exists.mp hfindSome
            have he1mem := List.mem_of_find?_eq_some hfind
            have he1id : e1.id = eid := by simpa using List.find?_some hfind
            have : e1 = e0 := eq_of_id_eq (·.id) hE he1mem he0mem
              (by show e1.id = e0.id; rw [he1id, he0id])
            rw [hfind]
            subst this
            simpa using hcourse
  have hmapped :
      List.Perm
        (((st.marks.map (·.enrollment_id)).dedup.filter (fun eid =>
          match st.enrollments.find? (fun e => e.id = eid) with
          | some e => e.course_id = cid
          | none => false)).map (markGroupPct st))
        ((st.enrollments.filter (fun e => e.course_id = cid)).filterMap (fun e =>
          if (st.marks.filter (fun m => m.enrollment_id = e.id)).isEmpty then none
          else some (((st.marks.filter (fun m => m.enrollment_id = e.id)).map
              (·.marks_obtained)).sum /
            ((st.marks.filter (fun m => m.enrollment_id = e.id)).map (·.max_marks)).sum *
              100))) := by
    rw [filterMap_ite]
    refine (hperm.map (markGroupPct st)).trans ?_
    rw [List.map_map]
    exact List.Perm.refl _
  have hL1empty : (((st.marks.map (·.enrollment_id)).dedup.filter (fun eid =>
      match st.enrollments.find? (fun e => e.id = eid) with
      | some e => e.course_id = cid
      | none => false)) = [] ↔
      ∀ e ∈ st.enrollments, e.course_id = cid → st.marksOf e.id = []) := by
    constructor
    · intro hnil e he hcourse
      by_contra hne
      rcases hms : st.marks.filter (fun m => m.enrollment_id = e.id) with _ | ⟨m0, ms⟩
      · exact hne (by simpa [Store.marksOf] using hms)
      · have hmem2 : e.id ∈ (((st.enrollments.filter (fun e => e.course_id = cid)).filter
            (fun e => ! (st.marks.filter (fun m => m.enrollment_id = e.id)).isEmpty)).map
          (·.id)) := by
          refine List.mem_map.mpr ⟨e, ?_, rfl⟩
          refine List.mem_filter.mpr ⟨List.mem_filter.mpr ⟨he, by simpa using hcourse⟩, ?_⟩
          simp [hms]
        have hmem := (hperm.mem_iff).mpr hmem2
        rw [hnil] at hmem
        cases hmem
    · intro hall
      rw [List.eq_nil_iff_forall_not_mem]
      intro y hy
      have hy2 := (hperm.mem_iff).mp hy
      obtain ⟨e0, he0, he0id⟩ := List.mem_map.mp hy2
      obtain ⟨he0', hne⟩ := List.mem_filter.mp he0
      obtain ⟨he0mem, hcourse⟩ := List.mem_filter.mp he0'
      have hmk := hall e0 he0mem (by simpa using hcourse)
      rw [Store.marksOf] at hmk
      rw [hmk] at hne
      simp at hne
  constructor
  · simp only [course_class_average_marks_pct, classAverageSpec]
    by_cases hnil : (((st.marks.map (·.enrollment_id)).dedup.filter (fun eid =>
        match st.enrollments.find? (fun e => e.id = eid) with
        | some e => e.course_id = cid
        | none => false)) = [])
    · rw [hnil] at hmapped ⊢
      have h2 := hmapped.symm.length_eq
      simp only [List.map_nil, List.length_nil, List.length_eq_zero] at h2
      rw [h2]
      simp
    · have hne1 : ¬ ((((st.marks.map (·.enrollment_id)).dedup.filter (fun eid =>
          match st.enrollments.find? (fun e => e.id = eid) with
          | some e => e.course_id = cid
          | none => false)).map (markGroupPct st)) = []) := by
        simpa using hnil
      have hne2 : ¬ (((st.enrollments.filter (fun e => e.course_id = cid)).filterMap (fun e =>
          if (st.marks.filter (fun m => m.enrollment_id = e.id)).isEmpty then none
          else some (((st.marks.filter (fun m => m.enrollment_id = e.id)).map
              (·.marks_obtained)).sum /
            ((st.marks.filter (fun m => m.enrollment_id = e.id)).map (·.max_marks)).sum *
              100))).isEmpty = true) := by
        rw [List.isEmpty_iff]
        intro hc
        rw [hc] at hmapped
        have := hmapped.length_eq
        simp only [List.length_nil, List.length_map, List.length_eq_zero] at this
        exact hnil this
      rw [if_neg hne1, if_neg hne2, hmapped.sum_eq, hmapped.length_eq]
  · simp only [course_class_average_marks_pct]
    constructor
    · intro hnone
      refine hL1empty.mp ?_
      by_contra hL
      have hmapne : ¬ ((((st.marks.map (·.enrollment_id)).dedup.filter (fun eid =>
          match st.enrollments.find? (fun e => e.id = eid) with
          | some e => e.course_id = cid
          | none => false)).map (markGroupPct st)) = []) := by
        simpa using hL
      rw [if_neg hmapne] at hnone
      cases hnone
    · intro hall
      rw [hL1empty.mpr hall]
      simp

/-- Witness for C8 on the concrete risk store. -/
theorem course_average_per_enrollment_witness :
    course_class_average_marks_pct riskSt 1 = classAverageSpec riskSt 1 ∧
    course_class_average_marks_pct riskSt 1 = some 60 :=
  ⟨(course_average_per_enrollment riskSt 1 (by decide)
      (by intro m hm; fin_cases hm; norm_num)).1,
   by with_unfolding_all decide⟩

/-- C4: the reconciliation pass is idempotent.  On any store whose surrogate
ids are unique per table (which SQLite's rowid keys guarantee), running
`cleanup_duplicates` a second time immediately after a first run changes
nothing, and on an already-clean store the pass has no observable effect. -/
theorem cleanup_duplicates_idempotent (st : Store) (h : st.WF) :
    cleanup_duplicates (cleanup_duplicates st) = cleanup_duplicates st ∧
    (st.Clean → cleanup_duplicates st = st) :=
  ⟨clean_cleanup_eq _ (cleanup_clean st h), fun hc => clean_cleanup_eq st hc⟩

theorem cleanup_duplicates_idempotent_witness :
    dupSt.WF ∧
    cleanup_duplicates (cleanup_duplicates dupSt) = cleanup_duplicates dupSt :=
  ⟨by decide, (cleanup_duplicates_idempotent dupSt (by decide)).1⟩

end Carpas
